import Mathlib

/-
Verification of the Ledger hardware-wallet keystore adapter
(`plugins/ledger/ledger.py`): a shallow embedding of the
transaction-signing coordination logic, the capability negotiation and the
signature splicing, together with theorems about them.

Conventions of the embedding:
* Byte strings are `List Nat` (each entry a byte value).  The Python code
  frequently goes through hex strings (`int_to_hex`, `var_int`, `bh2u`,
  `bfh`); we work at the byte level and apply the hex encoding (`bh2u`)
  exactly where the source stores a hex string.
* The USB device (`btchip` dongle) is opaque: a `Device` record carries,
  for every APDU the adapter may issue, the response the device would give
  (either a result or a `BTChipException` status word `sw`).
* Exceptions are modelled as values: `give_error` paths become
  `Except.error`, the bare `return` on user cancellation becomes a
  distinguished `cancelled` result.
-/

deriving instance DecidableEq for Except

/-- Byte strings: lists of byte values. -/
abbrev Bytes := List Nat

/-- Little-endian fixed-width integer encoding; byte-level rendering of the
source's `int_to_hex(n, width)`. -/
def intToLE (n : Nat) : Nat → Bytes
  | 0 => []
  | w + 1 => (n % 256) :: intToLE (n / 256) w

/-- Bitcoin variable-length integer, byte-level rendering of `var_int`. -/
def varInt (n : Nat) : Bytes :=
  if n < 0xfd then [n]
  else if n ≤ 0xffff then 0xfd :: intToLE n 2
  else if n ≤ 0xffffffff then 0xfe :: intToLE n 4
  else 0xff :: intToLE n 8

/-- Lower-case hex digit for a value below 16. -/
def hexChar (n : Nat) : Char :=
  if n < 10 then Char.ofNat (48 + n) else Char.ofNat (87 + n)

/-- Two-character lower-case hex rendering of one byte. -/
def byteHex (b : Nat) : String :=
  String.mk [hexChar (b / 16 % 16), hexChar (b % 16)]

/-- The source's `bh2u`: bytes to a lower-case hex string. -/
def bh2u (bs : Bytes) : String :=
  String.join (bs.map byteHex)

/-- Python tuple comparison `versiontuple(firmware) >= threshold` on
three-component version tuples: lexicographic greater-or-equal. -/
def verGE (v w : Nat × Nat × Nat) : Bool :=
  if w.1 < v.1 then true
  else if v.1 = w.1 then
    if w.2.1 < v.2.1 then true
    else if v.2.1 = w.2.1 then decide (w.2.2 ≤ v.2.2)
    else false
  else false

/-- Module-level constant `BITCOIN_CASH_SUPPORT = (1, 1, 8)`. -/
def BITCOIN_CASH_SUPPORT : Nat × Nat × Nat := (1, 1, 8)

/-- Module-level constant `CASHADDR_SUPPORT = (1, 2, 5)`. -/
def CASHADDR_SUPPORT : Nat × Nat × Nat := (1, 2, 5)

/-- A previous transaction as the adapter sees it: its raw serialization
(`txin['prev_tx'].raw`) plus the per-output 8-byte amount fields that the
external `btchip.bitcoinTransaction` parser extracts from that
serialization (`bitcoinTransaction(bfh(raw)).outputs[n].amount`). -/
structure PrevTx where
  raw : Bytes
  outputAmounts : List Bytes
deriving DecidableEq

/-- A transaction input (`txin` dict): script type, previous-output
reference, sequence number, the sorted extended public keys returned by
`tx.get_sorted_pubkeys`, the preimage script computed by the external
`Transaction.get_preimage_script`, and the mutable signature slots. -/
structure TxInput where
  scriptType : String
  prev_tx : PrevTx
  prevout_n : Nat
  prevout_hash : Bytes
  sequence : Nat
  x_pubkeys : List String
  redeemScript : Bytes
  signatures : List (Option String)
deriving DecidableEq

/-- The constant `TYPE_ADDRESS` from `electroncash.bitcoin`. -/
def TYPE_ADDRESS : Nat := 0

/-- A transaction output triple `(output_type, address, amount)`. -/
structure TxOutput where
  typ : Nat
  address : String
  amount : Nat
deriving DecidableEq

/-- The transaction under signature.  `output_info` is the wallet's
output-ownership record (`tx.output_info`), keeping only the derivation
index pair that the adapter reads (`index, xpubs, m = info` - only `index`
is used).  `payScripts` models the external `tx.pay_script(addr)`
serialization, one script per address.  `complete` is `tx.is_complete()`. -/
structure Transaction where
  inputs : List TxInput
  outputs : List TxOutput
  output_info : List (String × (Nat × Nat))
  payScripts : List (String × Bytes)
  locktime : Nat
  complete : Bool
deriving DecidableEq

/-- The keystore context: `self.derivation` (for `get_derivation`). -/
structure Keystore where
  derivation : String
deriving DecidableEq

/-- Result of one device round-trip: either the parsed answer or a
`BTChipException` carrying a status word. -/
inductive DevResult (α : Type) where
  | ok (a : α)
  | ex (sw : Nat)
deriving DecidableEq

/-- The opaque signing device, one field per APDU the adapter may issue.
`firmware` is `versiontuple(getFirmwareVersion()['version'])`;
`checkFirmwareOk` is the external `btchip.checkFirmware` verdict;
`unlockOk` condenses the operation-mode / detached-PIN verification arc of
`perform_hw1_preflight` (external UI plumbing); `swCashaddrOk` is the
outcome of probing `getWalletPublicKey(..., cashAddr=True)` for the host
library's CashAddr support.  `trustedInput` is the device's
`getTrustedInput` command; it is part of the device API but, as the
theorems record, never invoked by `sign_transaction`. -/
structure Device where
  firmware : Nat × Nat × Nat
  checkFirmwareOk : Bool
  unlockOk : Bool
  swCashaddrOk : Bool
  enable2fa : DevResult Unit
  start1 : DevResult Unit
  finalize : DevResult Bool
  startN : Nat → DevResult Unit
  hashSign : Nat → DevResult Bytes
  trustedInput : Bytes → Nat → DevResult Bytes

/-- The user-interaction handler.  `authPin` is what `handler.get_auth`
returns; the empty string models a falsy answer (`None` or `""`), i.e.
user cancellation at the confirmation dialog. -/
structure Handler where
  authPin : String
deriving DecidableEq

/-- The capability flags cached on `Ledger_Client` by
`perform_hw1_preflight`. -/
structure Capabilities where
  bitcoinCashSupported : Bool
  cashaddrFWSupported : Bool
  cashaddrSWSupported : Bool
deriving DecidableEq

/-- Error taxonomy for the adapter, one constructor per `give_error` /
`raise` site that the embedding distinguishes. -/
inductive SignError where
  | coinbaseUnsupported
  | noMatchingKey
  | mixedInputTypes
  | unsupportedFirmware
  | deviceLocked
  | assertionFailed
  | unsignableMessage
  | deviceProtocol (sw : Nat)
  | otherError
deriving DecidableEq

/-- Outcome tag of `sign_transaction`: the early return on
`tx.is_complete()`, the plain `return` on user cancellation, or the normal
completion that splices the signatures. -/
inductive SignResult where
  | alreadyComplete
  | cancelled
  | signed
deriving DecidableEq

/-- `perform_hw1_preflight`: compute the capability flags from the
firmware version by pure tuple comparison, then gate on the firmware check
(`not checkFirmware(firmwareInfo) or not self.supports_bitcoin_cash()`
raises "HW1 firmware version too old"), then the unlock arc, then the
host-software CashAddr probe. -/
def perform_hw1_preflight (d : Device) : Except SignError Capabilities :=
  let bitcoinCashSupported := verGE d.firmware BITCOIN_CASH_SUPPORT
  let cashaddrFWSupported := verGE d.firmware CASHADDR_SUPPORT
  if !d.checkFirmwareOk || !bitcoinCashSupported then
    .error .unsupportedFirmware
  else if !d.unlockOk then
    .error .deviceLocked
  else
    .ok { bitcoinCashSupported := bitcoinCashSupported
          cashaddrFWSupported := cashaddrFWSupported
          cashaddrSWSupported := d.swCashaddrOk }

/-- Path string `"{:s}/{:d}/{:d}".format(self.get_derivation()[2:], c, i)`. -/
def hwPath (ks : Keystore) (c i : Nat) : String :=
  (ks.derivation.drop 2) ++ "/" ++ toString c ++ "/" ++ toString i

/-- The `for i, x_pubkey in enumerate(x_pubkeys)` scan: first index whose
extended public key appears in the wallet's derivation records, together
with that record's `(change, index)` pair. -/
def findSigningInfo (derivations : List (String × (Nat × Nat))) :
    List String → Option (Nat × (Nat × Nat))
  | [] => none
  | x :: rest =>
    match List.lookup x derivations with
    | some s => some (0, s)
    | none => (findSigningInfo derivations rest).map (fun p => (p.1 + 1, p.2))

/-- One entry of the `inputs` list built by the collection loop:
`[prev_tx.raw, prevout_n, redeemScript, prevout_hash, signingPos,
sequence]`. -/
structure CollectedInput where
  prev_tx : PrevTx
  prevout_n : Nat
  redeemScript : Bytes
  prevout_hash : Bytes
  signingPos : Nat
  sequence : Nat
deriving DecidableEq

/-- The `for txin in tx.inputs()` collection loop: reject coinbase inputs,
record whether any input is p2sh, resolve each input's signing position and
derivation path (`give_error("No matching x_key ...")` when no extended
public key matches), and build the per-input records and path list. -/
def collectLoop (ks : Keystore) (derivations : List (String × (Nat × Nat))) :
    List TxInput → Except SignError (List CollectedInput × List String × Bool)
  | [] => .ok ([], [], false)
  | txin :: rest =>
    if txin.scriptType = "coinbase" then
      .error .coinbaseUnsupported
    else
      match findSigningInfo derivations txin.x_pubkeys with
      | none => .error .noMatchingKey
      | some ps =>
        let hwAddress := hwPath ks ps.2.1 ps.2.2
        match collectLoop ks derivations rest with
        | .error e => .error e
        | .ok (ins, paths, p2shRest) =>
          .ok ({ prev_tx := txin.prev_tx
                 prevout_n := txin.prevout_n
                 redeemScript := txin.redeemScript
                 prevout_hash := txin.prevout_hash
                 signingPos := ps.1
                 sequence := txin.sequence } :: ins,
               hwAddress :: paths,
               (txin.scriptType = "p2sh" : Bool) || p2shRest)

/-- The script bytes `tx.pay_script(addr)` (external serialization). -/
def lookupScript (tx : Transaction) (addr : String) : Bytes :=
  (List.lookup addr tx.payScripts).getD []

/-- The canonical output section: `var_int(len(outputs))` then, per output,
8-byte amount, script length and script bytes, accumulated in output
order exactly as the `txOutput +=` loop does. -/
def buildOutputSection (tx : Transaction) : Bytes :=
  tx.outputs.foldl
    (fun acc o =>
      acc ++ intToLE o.amount 8 ++ varInt (lookupScript tx o.address).length
          ++ lookupScript tx o.address)
    (varInt tx.outputs.length)

/-- The four locals of the output-recognition phase: `changePath`,
`changeAmount`, `output`, `outputAmount`, with their initial values. -/
structure OutputClassification where
  changePath : String
  changeAmount : Option Nat
  output : Option String
  outputAmount : Option Nat
deriving DecidableEq

/-- Initial values set before the recognition loop:
`changePath = ""`, `changeAmount = None`, `output = None`,
`outputAmount = None`. -/
def OutputClassification.init : OutputClassification :=
  { changePath := "", changeAmount := none, output := none, outputAmount := none }

/-- The `for _type, address, amount in tx.outputs()` recognition loop:
assert the output is address-typed; if its address is in `tx.output_info`
and the transaction has more than one output, record it as change,
otherwise record it as the payment output. -/
def recognizeLoop (ks : Keystore) (tx : Transaction) :
    OutputClassification → List TxOutput → Except SignError OutputClassification
  | acc, [] => .ok acc
  | acc, o :: rest =>
    if o.typ = TYPE_ADDRESS then
      match List.lookup o.address tx.output_info with
      | some idx =>
        if tx.outputs.length ≠ 1 then
          recognizeLoop ks tx
            { acc with changePath := hwPath ks idx.1 idx.2
                       changeAmount := some o.amount } rest
        else
          recognizeLoop ks tx
            { acc with output := some o.address, outputAmount := some o.amount } rest
      | none =>
        recognizeLoop ks tx
          { acc with output := some o.address, outputAmount := some o.amount } rest
    else
      .error .assertionFailed

/-- Output recognition over the whole output list (runs only for non-p2sh
transactions). -/
def recognizeOutputs (ks : Keystore) (tx : Transaction) :
    Except SignError OutputClassification :=
  recognizeLoop ks tx .init tx.outputs

/-- One entry of `chipInputs`: the dict
`{'value': tmp, 'witness': True, 'sequence': sequence}`. -/
structure ChipInput where
  value : Bytes
  witness : Bool
  sequence : Bytes
deriving DecidableEq

/-- The `for utxo in inputs` loop at the top of the try block: for every
collected input, build the trusted-input surrogate locally - reversed
prevout hash, 4-byte output index, and the amount parsed out of the full
previous-transaction bytes.  `none` models the `IndexError` raised by
`txtmp.outputs[utxo[1]]` when the output index is out of range. -/
def buildChipInputs : List CollectedInput → Option (List ChipInput)
  | [] => some []
  | ci :: rest =>
    match ci.prev_tx.outputAmounts[ci.prevout_n]? with
    | none => none
    | some amt =>
      match buildChipInputs rest with
      | none => none
      | some l =>
        some ({ value := ci.prevout_hash.reverse ++ intToLE ci.prevout_n 4 ++ amt
                witness := true
                sequence := intToLE ci.sequence 4 } :: l)

/-- How the try block's exception handlers classify an abort:
`UserWarning` (empty PIN), `BTChipException` with `sw == 0x6985` (both are
plain `return`s), any other `BTChipException` (`give_error(e, True)`), or a
`BaseException` such as an `IndexError` (`give_error(e, True)`). -/
inductive TryErr where
  | userCancelled
  | chipCancelled
  | chipError (sw : Nat)
  | baseError
deriving DecidableEq

/-- Dispatch of a `BTChipException` status word by the handlers of
`sign_transaction`: `0x6985` is the user declining on the device (plain
`return`), anything else is fatal. -/
def handleSw (sw : Nat) : TryErr :=
  if sw = 0x6985 then .chipCancelled else .chipError sw

/-- The `while inputIndex < len(inputs)` signing loop: one
`startUntrustedTransaction(False, 0, [chipInputs[i]], redeemScripts[i])`
plus one `untrustedHashSign(inputsPaths[i], pin, ...)` per input, in input
order; the returned DER signature has its first byte forced to `0x30`
(`inputSignature[0] = 0x30`, an `IndexError` on an empty reply).  Returns
the outcome and the number of device calls made. -/
def signInputsLoop (d : Device) : List Nat → (Except TryErr (List Bytes)) × Nat
  | [] => (.ok [], 0)
  | i :: rest =>
    match d.startN i with
    | .ex sw => (.error (handleSw sw), 1)
    | .ok _ =>
      match d.hashSign i with
      | .ex sw => (.error (handleSw sw), 2)
      | .ok sig =>
        match sig with
        | [] => (.error .baseError, 2)
        | _ :: tail =>
          let r := signInputsLoop d rest
          match r.1 with
          | .error e => (.error e, 2 + r.2)
          | .ok sigs => (.ok ((0x30 :: tail) :: sigs), 2 + r.2)

/-- Result of the try block: the outcome, the number of device round-trips
performed inside it, the number of `handler.get_auth` invocations, and the
address argument attached to the auth request when one was made
(`outputData['address'] = output`). -/
structure TryOut where
  out : Except TryErr (List Bytes)
  devCalls : Nat
  authCalls : Nat
  authAddress : Option (Option String)
deriving DecidableEq

/-- The try block of `sign_transaction`: build `chipInputs` locally,
`enableAlternate2fa(False)`, the first `startUntrustedTransaction(True, 0,
chipInputs, redeemScripts[0])` (an `IndexError` when there is no input),
`finalizeInputFull(txOutput)`; if the device asks for confirmation, one
`handler.get_auth` call whose falsy answer raises `UserWarning`; then the
per-input signing loop.  `useCashaddr` records
`cashaddr and supports_cashaddr()`, which only selects the `cashAddr`
keyword of the start calls. -/
def runTryBlock (d : Device) (h : Handler) (collected : List CollectedInput)
    (_txOutput : Bytes) (outputAddr : Option String) (_useCashaddr : Bool) : TryOut :=
  match buildChipInputs collected with
  | none => { out := .error .baseError, devCalls := 0, authCalls := 0, authAddress := none }
  | some _chipInputs =>
    match d.enable2fa with
    | .ex sw => { out := .error (handleSw sw), devCalls := 1, authCalls := 0, authAddress := none }
    | .ok _ =>
      match collected with
      | [] => { out := .error .baseError, devCalls := 1, authCalls := 0, authAddress := none }
      | _ :: _ =>
        match d.start1 with
        | .ex sw => { out := .error (handleSw sw), devCalls := 2, authCalls := 0, authAddress := none }
        | .ok _ =>
          match d.finalize with
          | .ex sw => { out := .error (handleSw sw), devCalls := 3, authCalls := 0, authAddress := none }
          | .ok confirmationNeeded =>
            if confirmationNeeded then
              if h.authPin = "" then
                { out := .error .userCancelled, devCalls := 3, authCalls := 1,
                  authAddress := some outputAddr }
              else
                let r := signInputsLoop d (List.range collected.length)
                { out := r.1, devCalls := 3 + r.2, authCalls := 1,
                  authAddress := some outputAddr }
            else
              let r := signInputsLoop d (List.range collected.length)
              { out := r.1, devCalls := 3 + r.2, authCalls := 0, authAddress := none }

/-- The final splice `txin['signatures'][inputs[i][4]] = bh2u(signatures[i])`
over `enumerate(tx.inputs())`.  On the path that reaches it the three lists
have equal length; the fall-through case (unequal lengths, unreachable)
leaves the remaining inputs untouched. -/
def spliceSignatures : List TxInput → List CollectedInput → List Bytes → List TxInput
  | txin :: ti, ci :: cs, sig :: ss =>
    { txin with signatures := txin.signatures.set ci.signingPos (some (bh2u sig)) }
      :: spliceSignatures ti cs ss
  | t, _, _ => t

/-- Everything observable about one `sign_transaction` call: the result,
the final transaction, the output classification the call computed
(the source keeps these as the locals `changePath` / `changeAmount` /
`output` / `outputAmount`), and the device / interaction counters. -/
structure SignTxOutcome where
  result : Except SignError SignResult
  tx : Transaction
  classification : OutputClassification
  devSignCalls : Nat
  devTrustedInputCalls : Nat
  getAuthCalls : Nat
  authAddress : Option (Option String)
deriving DecidableEq

/-- An outcome of a phase that never reached the device's signing protocol. -/
def noDeviceOutcome (tx : Transaction) (r : Except SignError SignResult) : SignTxOutcome :=
  { result := r, tx := tx, classification := .init, devSignCalls := 0,
    devTrustedInputCalls := 0, getAuthCalls := 0, authAddress := none }

/-- Dispatch on the try block's outcome: the `except` clauses of
`sign_transaction` (user cancellation and device status 0x6985 are plain
`return`s, other device errors and base exceptions go through
`give_error`), and on success the final splice
`txin['signatures'][signingPos] = bh2u(signatures[i])` followed by
`tx.raw = tx.serialize()`. -/
def finishTry (tx : Transaction) (oc : OutputClassification)
    (collected : List CollectedInput) (t : TryOut) : SignTxOutcome :=
  match t.out with
  | .error .userCancelled =>
    { result := .ok .cancelled, tx := tx, classification := oc,
      devSignCalls := t.devCalls, devTrustedInputCalls := 0,
      getAuthCalls := t.authCalls, authAddress := t.authAddress }
  | .error .chipCancelled =>
    { result := .ok .cancelled, tx := tx, classification := oc,
      devSignCalls := t.devCalls, devTrustedInputCalls := 0,
      getAuthCalls := t.authCalls, authAddress := t.authAddress }
  | .error (.chipError sw) =>
    { result := .error (.deviceProtocol sw), tx := tx, classification := oc,
      devSignCalls := t.devCalls, devTrustedInputCalls := 0,
      getAuthCalls := t.authCalls, authAddress := t.authAddress }
  | .error .baseError =>
    { result := .error .otherError, tx := tx, classification := oc,
      devSignCalls := t.devCalls, devTrustedInputCalls := 0,
      getAuthCalls := t.authCalls, authAddress := t.authAddress }
  | .ok signatures =>
    { result := .ok .signed,
      tx := { tx with inputs := spliceSignatures tx.inputs collected signatures },
      classification := oc,
      devSignCalls := t.devCalls, devTrustedInputCalls := 0,
      getAuthCalls := t.authCalls, authAddress := t.authAddress }

/-- `Ledger_KeyStore.sign_transaction` (body inside the
`set_and_unset_signing` decorator): early return when the transaction is
complete; `get_client()` runs `checkDevice` and hence
`perform_hw1_preflight`; the input-collection loop; the p2sh sanity check
(`"P2SH / regular input mixed in same transaction not supported"`); the
output section; output recognition for non-p2sh transactions; then the
device protocol in the try block, whose exception handlers turn user
cancellation into a plain return and everything else into `give_error`.
On success the signatures are spliced into the computed slots and the
transaction is re-serialized. -/
def sign_transaction (ks : Keystore) (d : Device) (h : Handler)
    (derivations : List (String × (Nat × Nat))) (cashaddrUI : Bool)
    (tx : Transaction) : SignTxOutcome :=
  if tx.complete then
    noDeviceOutcome tx (.ok .alreadyComplete)
  else
    match perform_hw1_preflight d with
    | .error e => noDeviceOutcome tx (.error e)
    | .ok caps =>
      match collectLoop ks derivations tx.inputs with
      | .error e => noDeviceOutcome tx (.error e)
      | .ok (collected, _inputsPaths, p2shTransaction) =>
        if p2shTransaction && tx.inputs.any (fun t => !(t.scriptType = "p2sh" : Bool)) then
          noDeviceOutcome tx (.error .mixedInputTypes)
        else
          match (if !p2shTransaction then recognizeOutputs ks tx
                 else .ok .init) with
          | .error e => noDeviceOutcome tx (.error e)
          | .ok oc =>
            finishTry tx oc collected
              (runTryBlock d h collected (buildOutputSection tx) oc.output
                (cashaddrUI && (caps.cashaddrFWSupported && caps.cashaddrSWSupported)))

/-- The ASN.1 splice at the end of `sign_message`: read the r-length byte,
extract `r` and `s`, strip the zero pad when a length byte is 33, and
prefix `27 + 4 + (signature[0] & 0x01)`. -/
def spliceCompact (signature : Bytes) : Bytes :=
  let rLength := signature.getD 3 0
  let r := (signature.drop 4).take rLength
  let sLength := signature.getD (4 + rLength + 1) 0
  let s := signature.drop (4 + rLength + 2)
  let r2 := if rLength = 33 then r.drop 1 else r
  let s2 := if sLength = 33 then s.drop 1 else s
  (27 + 4 + (signature.getD 0 0) % 2) :: (r2 ++ s2)

/-- The device commands used by `sign_message`: `signMessagePrepare`
(returning `confirmationNeeded`) and `signMessageSign` (returning the DER
signature). -/
structure MsgDevice where
  prepare : DevResult Bool
  msgSign : DevResult Bytes

/-- Outcome of `sign_message`: the empty byte string returned on
cancellation, a `give_error` abort, or the spliced compact signature. -/
inductive MsgOutcome where
  | cancelled
  | failed (e : SignError)
  | ok (sig : Bytes)
deriving DecidableEq

/-- The `BTChipException` handler of `sign_message`: `0x6a80` is the
unsignable-message `give_error`, `0x6985` the on-device cancellation
(returns `b''`), anything else `give_error(e, True)`. -/
def msgChipErr (sw : Nat) : MsgOutcome :=
  if sw = 0x6a80 then .failed .unsignableMessage
  else if sw = 0x6985 then .cancelled
  else .failed (.deviceProtocol sw)

/-- `Ledger_KeyStore.sign_message` (body inside the decorator): prepare,
possibly ask the user (a falsy PIN raises `UserWarning`, caught as a
`b''` return), sign, then splice the DER signature into the 65-byte
compact form. -/
def sign_message (d : MsgDevice) (h : Handler) : MsgOutcome :=
  match d.prepare with
  | .ex sw => msgChipErr sw
  | .ok confirmationNeeded =>
    if confirmationNeeded && (h.authPin = "" : Bool) then .cancelled
    else
      match d.msgSign with
      | .ex sw => msgChipErr sw
      | .ok signature => .ok (spliceCompact signature)

/-- The keystore's mutable signing flag (`self.signing`). -/
structure KSState where
  signing : Bool
deriving DecidableEq

/-- The `set_and_unset_signing` decorator: set the flag, run the body,
and clear the flag in a `finally` block, i.e. on every exit path. -/
def set_and_unset_signing {α : Type} (f : KSState → α × KSState) (st : KSState) :
    α × KSState :=
  let r := f { st with signing := true }
  (r.1, { r.2 with signing := false })

/-- The state effect of `give_error`: when the signing flag is set it is
cleared (otherwise the handler shows the error); then the exception is
raised (the raising is the `Except.error` value of the body). -/
def give_error (st : KSState) : KSState :=
  if st.signing then { st with signing := false } else st

/-- `sign_transaction` as a state transformer on the signing flag: error
paths go through `give_error` before the exception propagates. -/
def sign_transaction_body (ks : Keystore) (d : Device) (h : Handler)
    (derivations : List (String × (Nat × Nat))) (cashaddrUI : Bool)
    (tx : Transaction) (st : KSState) : SignTxOutcome × KSState :=
  let o := sign_transaction ks d h derivations cashaddrUI tx
  match o.result with
  | .error _ => (o, give_error st)
  | .ok _ => (o, st)

/-- The decorated `sign_transaction`. -/
def sign_transaction_wrapped (ks : Keystore) (d : Device) (h : Handler)
    (derivations : List (String × (Nat × Nat))) (cashaddrUI : Bool)
    (tx : Transaction) : KSState → SignTxOutcome × KSState :=
  set_and_unset_signing (sign_transaction_body ks d h derivations cashaddrUI tx)

/-- `sign_message` as a state transformer on the signing flag. -/
def sign_message_body (d : MsgDevice) (h : Handler) (st : KSState) :
    MsgOutcome × KSState :=
  let o := sign_message d h
  match o with
  | .failed _ => (o, give_error st)
  | _ => (o, st)

/-- The decorated `sign_message`. -/
def sign_message_wrapped (d : MsgDevice) (h : Handler) :
    KSState → MsgOutcome × KSState :=
  set_and_unset_signing (sign_message_body d h)

/-- `show_address` as a state transformer: its try block swallows every
exception (`except: pass`), so the body always returns normally. -/
def show_address_body (_d : Device) (st : KSState) : Unit × KSState :=
  ((), st)

/-- The decorated `show_address`. -/
def show_address_wrapped (d : Device) : KSState → Unit × KSState :=
  set_and_unset_signing (show_address_body d)

/-
Concrete material for witnesses and counterexamples.
-/

/-- Example keystore with derivation `m/44h/0h/0h`. -/
def ksEx : Keystore := { derivation := "m/44h/0h/0h" }

/-- A 32-byte `r` component. -/
def rEx : Bytes := List.replicate 32 0x11

/-- A 32-byte `s` component. -/
def sEx : Bytes := List.replicate 32 0x22

/-- A 70-byte DER signature as the device returns it; its first byte is
0x31 to make the forcing `inputSignature[0] = 0x30` visible. -/
def derEx : Bytes := [0x31, 0x44, 0x02, 0x20] ++ rEx ++ ([0x02, 0x20] ++ sEx)

/-- The DER signature after `inputSignature[0] = 0x30`. -/
def derForced : Bytes := 0x30 :: derEx.tail

/-- A previous transaction with one 90000-satoshi output. -/
def prevTxEx : PrevTx := { raw := [0xaa, 0xbb], outputAmounts := [intToLE 90000 8] }

/-- A p2pkh input spending `prevTxEx`, one signature slot. -/
def inEx : TxInput :=
  { scriptType := "p2pkh", prev_tx := prevTxEx, prevout_n := 0,
    prevout_hash := List.replicate 32 0xcd, sequence := 0xfffffffe,
    x_pubkeys := ["xpubA"], redeemScript := [0x76, 0xa9],
    signatures := [none] }

/-- A p2sh input spending `prevTxEx`, two signature slots, second key ours. -/
def inP2sh : TxInput :=
  { scriptType := "p2sh", prev_tx := prevTxEx, prevout_n := 0,
    prevout_hash := List.replicate 32 0xce, sequence := 0xfffffffe,
    x_pubkeys := ["xpubOther", "xpubA"], redeemScript := [0x52, 0x21],
    signatures := [none, none] }

/-- A payment output to an address the wallet does not own. -/
def outPay : TxOutput := { typ := TYPE_ADDRESS, address := "addrPay", amount := 80000 }

/-- An output to a wallet-owned address (present in `output_info`). -/
def outChange : TxOutput := { typ := TYPE_ADDRESS, address := "addrChange", amount := 9000 }

/-- Script table for the example addresses. -/
def payScriptsEx : List (String × Bytes) :=
  [("addrPay", [0x76, 0xa9, 0x14]), ("addrChange", [0x76, 0xa9, 0x15])]

/-- One-input, one-output transaction (single script type, not complete). -/
def txEx : Transaction :=
  { inputs := [inEx], outputs := [outPay], output_info := [],
    payScripts := payScriptsEx, locktime := 0, complete := false }

/-- Two-output transaction whose second output is wallet-owned. -/
def txTwoOut : Transaction :=
  { inputs := [inEx], outputs := [outPay, outChange],
    output_info := [("addrChange", (1, 3))],
    payScripts := payScriptsEx, locktime := 0, complete := false }

/-- Two-output transaction whose first output is wallet-owned. -/
def txTwoOutA : Transaction :=
  { inputs := [inEx], outputs := [outChange, outPay],
    output_info := [("addrChange", (1, 3))],
    payScripts := payScriptsEx, locktime := 0, complete := false }

/-- One-output transaction whose only output is wallet-owned. -/
def txOneOut : Transaction :=
  { inputs := [inEx], outputs := [outChange],
    output_info := [("addrChange", (1, 3))],
    payScripts := payScriptsEx, locktime := 0, complete := false }

/-- The classification computed for `txTwoOut`. -/
def ocTwoOut : OutputClassification :=
  { changePath := "44h/0h/0h/1/3", changeAmount := some 9000,
    output := some "addrPay", outputAmount := some 80000 }

/-- All-p2sh transaction with two outputs, one of them wallet-owned. -/
def txP2sh : Transaction :=
  { inputs := [inP2sh], outputs := [outPay, outChange],
    output_info := [("addrChange", (1, 3))],
    payScripts := payScriptsEx, locktime := 0, complete := false }

/-- Mixed transaction: one p2sh input and one p2pkh input. -/
def txMixed : Transaction :=
  { inputs := [inP2sh, inEx], outputs := [outPay], output_info := [],
    payScripts := payScriptsEx, locktime := 0, complete := false }

/-- Transaction whose input's extended public key is unknown to the wallet. -/
def txNoMatch : Transaction :=
  { inputs := [{ inEx with x_pubkeys := ["xpubForeign"] }], outputs := [outPay],
    output_info := [], payScripts := payScriptsEx, locktime := 0, complete := false }

/-- A transaction that is already fully signed (`is_complete()` true). -/
def txComplete : Transaction :=
  { inputs := [{ inEx with signatures := [some "00"] }], outputs := [outPay],
    output_info := [], payScripts := payScriptsEx, locktime := 0, complete := true }

/-- The wallet's derivation records: only `xpubA` is ours. -/
def derivsEx : List (String × (Nat × Nat)) := [("xpubA", (0, 7))]

/-- A cooperating device on recent firmware that needs no confirmation. -/
def devEx : Device :=
  { firmware := (1, 2, 5), checkFirmwareOk := true, unlockOk := true,
    swCashaddrOk := true, enable2fa := .ok (), start1 := .ok (),
    finalize := .ok false, startN := fun _ => .ok (),
    hashSign := fun _ => .ok derEx, trustedInput := fun _ _ => .ok [] }

/-- The same device, but requesting an on-screen confirmation. -/
def devConfirm : Device := { devEx with finalize := .ok true }

/-- A device whose signing step reports status 0x6985 (user declined). -/
def devCancel : Device := { devEx with hashSign := fun _ => .ex 0x6985 }

/-- A device on firmware 1.1.7, below `BITCOIN_CASH_SUPPORT`. -/
def devOldFw : Device := { devEx with firmware := (1, 1, 7) }

/-- A handler whose auth dialog is dismissed (falsy PIN). -/
def hEx : Handler := { authPin := "" }

/-- A handler whose auth dialog returns a PIN. -/
def hAuth : Handler := { authPin := "1234" }

/-- The capabilities negotiated with `devEx`. -/
def capsEx : Capabilities :=
  { bitcoinCashSupported := true, cashaddrFWSupported := true, cashaddrSWSupported := true }

/-- The collected-input record for `txEx`. -/
def colEx : List CollectedInput :=
  [{ prev_tx := prevTxEx, prevout_n := 0, redeemScript := [0x76, 0xa9],
     prevout_hash := List.replicate 32 0xcd, signingPos := 0, sequence := 0xfffffffe }]

/-- The derivation paths for `txEx`. -/
def pathsEx : List String := ["44h/0h/0h/0/7"]

/-- The output classification computed for `txEx`. -/
def ocEx : OutputClassification :=
  { changePath := "", changeAmount := none, output := some "addrPay",
    outputAmount := some 80000 }

/-- The collected-input records for `txMixed`. -/
def colMixed : List CollectedInput :=
  [{ prev_tx := prevTxEx, prevout_n := 0, redeemScript := [0x52, 0x21],
     prevout_hash := List.replicate 32 0xce, signingPos := 1, sequence := 0xfffffffe },
   { prev_tx := prevTxEx, prevout_n := 0, redeemScript := [0x76, 0xa9],
     prevout_hash := List.replicate 32 0xcd, signingPos := 0, sequence := 0xfffffffe }]

/-- The derivation paths for `txMixed`. -/
def pathsMixed : List String := ["44h/0h/0h/0/7", "44h/0h/0h/0/7"]

/-- The chip-input surrogates built locally for `colEx`. -/
def chipsEx : List ChipInput :=
  [{ value := (List.replicate 32 0xcd).reverse ++ intToLE 0 4 ++ intToLE 90000 8,
     witness := true, sequence := intToLE 0xfffffffe 4 }]

/-
Helper lemmas about the phases of the signing protocol.
-/

/-- A signing position found by the x-pubkey scan indexes into the scanned
pubkey list. -/
theorem findSigningInfo_lt {ds : List (String × (Nat × Nat))} :
    ∀ {xs : List String} {p : Nat × (Nat × Nat)},
      findSigningInfo ds xs = some p → p.1 < xs.length := by
  intro xs
  induction xs with
  | nil => intro p hp; simp [findSigningInfo] at hp
  | cons x rest ih =>
    intro p hp
    simp only [findSigningInfo] at hp
    cases hl : List.lookup x ds with
    | some s =>
      rw [hl] at hp
      cases hp
      simp
    | none =>
      rw [hl] at hp
      simp only [Option.map_eq_some'] at hp
      obtain ⟨q, hq, rfl⟩ := hp
      have := ih hq
      simp only [List.length_cons]
      omega

/-- The collection loop yields one record per transaction input. -/
theorem collectLoop_length {ks : Keystore} {ds : List (String × (Nat × Nat))} :
    ∀ {l : List TxInput} {col : List CollectedInput} {paths : List String} {p : Bool},
      collectLoop ks ds l = .ok (col, paths, p) → col.length = l.length := by
  intro l
  induction l with
  | nil =>
    intro col paths p hp
    simp only [collectLoop, Except.ok.injEq, Prod.mk.injEq] at hp
    simp [← hp.1]
  | cons txin rest ih =>
    intro col paths p hp
    by_cases hcb : txin.scriptType = "coinbase"
    · simp [collectLoop, hcb] at hp
    · cases hfi : findSigningInfo ds txin.x_pubkeys with
      | none => simp [collectLoop, hcb, hfi] at hp
      | some ps =>
        cases hrest : collectLoop ks ds rest with
        | error e => simp [collectLoop, hcb, hfi, hrest] at hp
        | ok triple =>
          obtain ⟨ins, paths2, p2⟩ := triple
          simp only [collectLoop, hcb, if_false, hfi, hrest, Except.ok.injEq,
            Prod.mk.injEq] at hp
          obtain ⟨h1, _, _⟩ := hp
          simp [← h1, List.length_cons, ih hrest]

/-- Each collected record is the faithful image of the input at the same
position, with the signing position found by the x-pubkey scan. -/
theorem collectLoop_get {ks : Keystore} {ds : List (String × (Nat × Nat))} :
    ∀ {l : List TxInput} {col : List CollectedInput} {paths : List String} {p : Bool},
      collectLoop ks ds l = .ok (col, paths, p) →
      ∀ {i : Nat} {t : TxInput}, l[i]? = some t →
        ∃ ps, findSigningInfo ds t.x_pubkeys = some ps ∧
          col[i]? = some { prev_tx := t.prev_tx, prevout_n := t.prevout_n,
                           redeemScript := t.redeemScript, prevout_hash := t.prevout_hash,
                           signingPos := ps.1, sequence := t.sequence } := by
  intro l
  induction l with
  | nil => intro col paths p hp i t ht; simp at ht
  | cons txin rest ih =>
    intro col paths p hp i t ht
    by_cases hcb : txin.scriptType = "coinbase"
    · simp [collectLoop, hcb] at hp
    · cases hfi : findSigningInfo ds txin.x_pubkeys with
      | none => simp [collectLoop, hcb, hfi] at hp
      | some ps =>
        cases hrest : collectLoop ks ds rest with
        | error e => simp [collectLoop, hcb, hfi, hrest] at hp
        | ok triple =>
          obtain ⟨ins, paths2, p2⟩ := triple
          simp only [collectLoop, hcb, if_false, hfi, hrest, Except.ok.injEq,
            Prod.mk.injEq] at hp
          obtain ⟨h1, _, _⟩ := hp
          cases i with
          | zero =>
            simp only [List.getElem?_cons_zero, Option.some.injEq] at ht
            subst ht
            exact ⟨ps, hfi, by simp [← h1]⟩
          | succ j =>
            simp only [List.getElem?_cons_succ] at ht
            obtain ⟨ps2, hps2, hcol2⟩ := ih hrest ht
            exact ⟨ps2, hps2, by simp [← h1, hcol2]⟩

/-- The boolean accumulated by the collection loop says whether any input
is p2sh. -/
theorem collectLoop_p2sh {ks : Keystore} {ds : List (String × (Nat × Nat))} :
    ∀ {l : List TxInput} {col : List CollectedInput} {paths : List String} {p : Bool},
      collectLoop ks ds l = .ok (col, paths, p) →
      p = l.any (fun t => t.scriptType = "p2sh") := by
  intro l
  induction l with
  | nil =>
    intro col paths p hp
    simp only [collectLoop, Except.ok.injEq, Prod.mk.injEq] at hp
    simp [← hp.2.2]
  | cons txin rest ih =>
    intro col paths p hp
    by_cases hcb : txin.scriptType = "coinbase"
    · simp [collectLoop, hcb] at hp
    · cases hfi : findSigningInfo ds txin.x_pubkeys with
      | none => simp [collectLoop, hcb, hfi] at hp
      | some ps =>
        cases hrest : collectLoop ks ds rest with
        | error e => simp [collectLoop, hcb, hfi, hrest] at hp
        | ok triple =>
          obtain ⟨ins, paths2, p2⟩ := triple
          simp only [collectLoop, hcb, if_false, hfi, hrest, Except.ok.injEq,
            Prod.mk.injEq] at hp
          obtain ⟨_, _, h3⟩ := hp
          simp [← h3, ih hrest, List.any_cons]

/-- When no input is coinbase and some input has no matching extended
public key, the collection loop fails with the no-matching-key error. -/
theorem collectLoop_noMatch {ks : Keystore} {ds : List (String × (Nat × Nat))} :
    ∀ {l : List TxInput},
      (∀ t ∈ l, ¬ t.scriptType = "coinbase") →
      (∃ t ∈ l, findSigningInfo ds t.x_pubkeys = none) →
      collectLoop ks ds l = .error .noMatchingKey := by
  intro l
  induction l with
  | nil => intro _ hbad; simp at hbad
  | cons txin rest ih =>
    intro hnocb hbad
    have hcb : ¬ txin.scriptType = "coinbase" := hnocb txin (by simp)
    cases hfi : findSigningInfo ds txin.x_pubkeys with
    | none => simp [collectLoop, hcb, hfi]
    | some ps =>
      have hbad2 : ∃ t ∈ rest, findSigningInfo ds t.x_pubkeys = none := by
        obtain ⟨t, hmem, hnone⟩ := hbad
        rcases List.mem_cons.mp hmem with rfl | hmem2
        · rw [hfi] at hnone; cases hnone
        · exact ⟨t, hmem2, hnone⟩
      have hrest := ih (fun t ht => hnocb t (List.mem_cons_of_mem _ ht)) hbad2
      simp [collectLoop, hcb, hfi, hrest]

/-- A successful signing loop returns one signature per index, each the
device's DER reply for that index with its first byte forced to 0x30. -/
theorem signInputsLoop_spec {d : Device} :
    ∀ {idxs : List Nat} {sigs : List Bytes} {c : Nat},
      signInputsLoop d idxs = (.ok sigs, c) →
      sigs.length = idxs.length ∧
      ∀ {j i : Nat}, idxs[j]? = some i →
        ∃ raw, d.hashSign i = .ok raw ∧ raw ≠ [] ∧
          sigs[j]? = some (0x30 :: raw.tail) := by
  intro idxs
  induction idxs with
  | nil =>
    intro sigs c hp
    simp only [signInputsLoop, Prod.mk.injEq, Except.ok.injEq] at hp
    constructor
    · simp [← hp.1]
    · intro j i hj; simp at hj
  | cons i0 rest ih =>
    intro sigs c hp
    cases hst : d.startN i0 with
    | ex sw => simp [signInputsLoop, hst] at hp
    | ok u =>
      cases hsig : d.hashSign i0 with
      | ex sw => simp [signInputsLoop, hst, hsig] at hp
      | ok sig =>
        cases sig with
        | nil => simp [signInputsLoop, hst, hsig] at hp
        | cons b tail =>
          cases hr : (signInputsLoop d rest).1 with
          | error e => simp [signInputsLoop, hst, hsig, hr] at hp
          | ok sigs2 =>
            simp only [signInputsLoop, hst, hsig, hr, Prod.mk.injEq,
              Except.ok.injEq] at hp
            have hrest : signInputsLoop d rest = (.ok sigs2, (signInputsLoop d rest).2) := by
              rw [← hr]
            obtain ⟨ihl, ihp⟩ := ih hrest
            constructor
            · simp [← hp.1, ihl]
            · intro j i hj
              cases j with
              | zero =>
                simp only [List.getElem?_cons_zero, Option.some.injEq] at hj
                subst hj
                exact ⟨b :: tail, hsig, by simp, by simp [← hp.1]⟩
              | succ k =>
                simp only [List.getElem?_cons_succ] at hj
                obtain ⟨raw, h1, h2, h3⟩ := ihp hj
                exact ⟨raw, h1, h2, by simp [← hp.1, h3]⟩

/-- When the try block succeeds, its signatures come from the signing loop
run over the input indices in order. -/
theorem runTryBlock_ok {d : Device} {h : Handler} {col : List CollectedInput}
    {tB : Bytes} {oa : Option String} {uc : Bool} {sigs : List Bytes} :
    (runTryBlock d h col tB oa uc).out = .ok sigs →
    ∃ c, signInputsLoop d (List.range col.length) = (.ok sigs, c) := by
  intro hp
  unfold runTryBlock at hp
  cases hchip : buildChipInputs col with
  | none => rw [hchip] at hp; simp at hp
  | some chips =>
    rw [hchip] at hp
    cases h2fa : d.enable2fa with
    | ex sw => rw [h2fa] at hp; simp at hp
    | ok u =>
      rw [h2fa] at hp
      cases col with
      | nil => simp at hp
      | cons c0 cr =>
        cases hs1 : d.start1 with
        | ex sw => rw [hs1] at hp; simp at hp
        | ok u1 =>
          rw [hs1] at hp
          cases hf : d.finalize with
          | ex sw => rw [hf] at hp; simp at hp
          | ok conf =>
            rw [hf] at hp
            cases conf with
            | false =>
              simp only [if_false, Bool.false_eq_true] at hp
              exact ⟨(signInputsLoop d (List.range (c0 :: cr).length)).2, by rw [← hp]⟩
            | true =>
              simp only [if_true] at hp
              by_cases hpin : h.authPin = ""
              · simp [hpin] at hp
              · simp only [hpin, if_false] at hp
                exact ⟨(signInputsLoop d (List.range (c0 :: cr).length)).2, by rw [← hp]⟩

/-- The try block asks the user at most once, and only when the finalize
round-trip requested a confirmation; the auth request carries the payment
output identified earlier. -/
theorem runTryBlock_authCases (d : Device) (h : Handler) (col : List CollectedInput)
    (tB : Bytes) (oa : Option String) (uc : Bool) :
    ((runTryBlock d h col tB oa uc).authCalls = 0 ∧
      (runTryBlock d h col tB oa uc).authAddress = none) ∨
    ((runTryBlock d h col tB oa uc).authCalls = 1 ∧ d.finalize = .ok true ∧
      (runTryBlock d h col tB oa uc).authAddress = some oa) := by
  unfold runTryBlock
  cases buildChipInputs col with
  | none => left; exact ⟨rfl, rfl⟩
  | some chips =>
    cases d.enable2fa with
    | ex sw => left; exact ⟨rfl, rfl⟩
    | ok u =>
      cases col with
      | nil => left; exact ⟨rfl, rfl⟩
      | cons c0 cr =>
        cases d.start1 with
        | ex sw => left; exact ⟨rfl, rfl⟩
        | ok u1 =>
          cases hf : d.finalize with
          | ex sw => left; exact ⟨rfl, rfl⟩
          | ok conf =>
            cases conf with
            | false => left; exact ⟨rfl, rfl⟩
            | true =>
              by_cases hpin : h.authPin = ""
              · right; simp [hpin, hf]
              · right; simp [hpin, hf]

/-- Each chip input is built locally from the collected input at the same
position: reversed prevout hash, 4-byte output index, parsed amount. -/
theorem buildChipInputs_get :
    ∀ {col : List CollectedInput} {chips : List ChipInput},
      buildChipInputs col = some chips →
      ∀ {i : Nat} {ci : CollectedInput}, col[i]? = some ci →
        ∃ amt, ci.prev_tx.outputAmounts[ci.prevout_n]? = some amt ∧
          chips[i]? = some { value := ci.prevout_hash.reverse ++ intToLE ci.prevout_n 4 ++ amt,
                             witness := true, sequence := intToLE ci.sequence 4 } := by
  intro col
  induction col with
  | nil => intro chips hp i ci hi; simp at hi
  | cons c0 rest ih =>
    intro chips hp i ci hi
    cases hamt : c0.prev_tx.outputAmounts[c0.prevout_n]? with
    | none => simp [buildChipInputs, hamt] at hp
    | some amt =>
      cases hrest : buildChipInputs rest with
      | none => simp [buildChipInputs, hamt, hrest] at hp
      | some l =>
        simp only [buildChipInputs, hamt, hrest, Option.some.injEq] at hp
        cases i with
        | zero =>
          simp only [List.getElem?_cons_zero, Option.some.injEq] at hi
          subst hi
          exact ⟨amt, hamt, by simp [← hp]⟩
        | succ j =>
          simp only [List.getElem?_cons_succ] at hi
          obtain ⟨amt2, h1, h2⟩ := ih hrest hi
          exact ⟨amt2, h1, by simp [← hp, h2]⟩

/-- The splice writes, at every position, the hex of that position's
signature into the slot selected by the collected signing position. -/
theorem spliceSignatures_get :
    ∀ {ti : List TxInput} {cs : List CollectedInput} {ss : List Bytes}
      {i : Nat} {t : TxInput} {ci : CollectedInput} {sig : Bytes},
      ti[i]? = some t → cs[i]? = some ci → ss[i]? = some sig →
      (spliceSignatures ti cs ss)[i]? =
        some { t with signatures := t.signatures.set ci.signingPos (some (bh2u sig)) } := by
  intro ti
  induction ti with
  | nil => intro cs ss i t ci sig ht; simp at ht
  | cons t0 tr ih =>
    intro cs ss i t ci sig ht hc hs
    cases cs with
    | nil => simp at hc
    | cons c0 cr =>
      cases ss with
      | nil => simp at hs
      | cons s0 sr =>
        cases i with
        | zero =>
          simp only [List.getElem?_cons_zero, Option.some.injEq] at ht hc hs
          subst ht; subst hc; subst hs
          simp [spliceSignatures]
        | succ j =>
          simp only [List.getElem?_cons_succ] at ht hc hs
          simpa [spliceSignatures] using ih ht hc hs

/-- The splice preserves the number of inputs. -/
theorem spliceSignatures_length :
    ∀ {ti : List TxInput} {cs : List CollectedInput} {ss : List Bytes},
      (spliceSignatures ti cs ss).length = ti.length := by
  intro ti
  induction ti with
  | nil => intro cs ss; cases cs <;> cases ss <;> rfl
  | cons t0 tr ih =>
    intro cs ss
    cases cs with
    | nil => rfl
    | cons c0 cr =>
      cases ss with
      | nil => rfl
      | cons s0 sr => simp [spliceSignatures, ih]

/-- Two-output recognition, wallet-owned output first: the owned output
becomes change, the other becomes the payment output. -/
theorem recognizeOutputs_two_first {ks : Keystore} {tx : Transaction}
    {o1 o2 : TxOutput} {idx : Nat × Nat}
    (ho : tx.outputs = [o1, o2])
    (h1 : List.lookup o1.address tx.output_info = some idx)
    (h2 : List.lookup o2.address tx.output_info = none)
    (ht1 : o1.typ = TYPE_ADDRESS) (ht2 : o2.typ = TYPE_ADDRESS) :
    recognizeOutputs ks tx = .ok
      { changePath := hwPath ks idx.1 idx.2, changeAmount := some o1.amount,
        output := some o2.address, outputAmount := some o2.amount } := by
  simp [recognizeOutputs, recognizeLoop, ho, h1, h2, ht1, ht2]

/-- Two-output recognition, wallet-owned output second. -/
theorem recognizeOutputs_two_second {ks : Keystore} {tx : Transaction}
    {o1 o2 : TxOutput} {idx : Nat × Nat}
    (ho : tx.outputs = [o1, o2])
    (h1 : List.lookup o1.address tx.output_info = none)
    (h2 : List.lookup o2.address tx.output_info = some idx)
    (ht1 : o1.typ = TYPE_ADDRESS) (ht2 : o2.typ = TYPE_ADDRESS) :
    recognizeOutputs ks tx = .ok
      { changePath := hwPath ks idx.1 idx.2, changeAmount := some o2.amount,
        output := some o1.address, outputAmount := some o1.amount } := by
  simp [recognizeOutputs, recognizeLoop, ho, h1, h2, ht1, ht2]

/-- Single-output recognition: the output is never classified as change,
even when its address is wallet-owned. -/
theorem recognizeOutputs_single {ks : Keystore} {tx : Transaction} {o : TxOutput}
    (ho : tx.outputs = [o]) (ht : o.typ = TYPE_ADDRESS) :
    recognizeOutputs ks tx = .ok
      { changePath := "", changeAmount := none,
        output := some o.address, outputAmount := some o.amount } := by
  cases hl : List.lookup o.address tx.output_info with
  | none => simp [recognizeOutputs, recognizeLoop, ho, hl, ht, OutputClassification.init]
  | some idx => simp [recognizeOutputs, recognizeLoop, ho, hl, ht, OutputClassification.init]

/-- Whatever the recognition loop marks as change came from an output
whose address is in the wallet's output-info records. -/
theorem recognizeLoop_change_sound {ks : Keystore} {tx : Transaction} :
    ∀ {l : List TxOutput} {acc oc : OutputClassification},
      recognizeLoop ks tx acc l = .ok oc →
      oc.changeAmount = acc.changeAmount ∨
        ∃ o ∈ l, (List.lookup o.address tx.output_info).isSome ∧
          oc.changeAmount = some o.amount := by
  intro l
  induction l with
  | nil =>
    intro acc oc hp
    simp only [recognizeLoop, Except.ok.injEq] at hp
    left; rw [hp]
  | cons o rest ih =>
    intro acc oc hp
    by_cases ht : o.typ = TYPE_ADDRESS
    · cases hl : List.lookup o.address tx.output_info with
      | some idx =>
        by_cases hlen : tx.outputs.length ≠ 1
        · simp only [recognizeLoop, ht, if_true, hl] at hp
          rw [if_pos hlen] at hp
          rcases ih hp with hsame | ⟨o2, hmem, hs, ha⟩
          · right; exact ⟨o, by simp, by simp [hl], by simpa using hsame⟩
          · right; exact ⟨o2, by simp [hmem], hs, ha⟩
        · simp only [recognizeLoop, ht, if_true, hl] at hp
          rw [if_neg hlen] at hp
          rcases ih hp with hsame | ⟨o2, hmem, hs, ha⟩
          · left; simpa using hsame
          · right; exact ⟨o2, by simp [hmem], hs, ha⟩
      | none =>
        simp only [recognizeLoop, ht, if_true, hl] at hp
        rcases ih hp with hsame | ⟨o2, hmem, hs, ha⟩
        · left; simpa using hsame
        · right; exact ⟨o2, by simp [hmem], hs, ha⟩
    · simp [recognizeLoop, ht] at hp

/-- Structure of the compact splice on a well-formed DER layout
`[b0, b1, 0x02, rlen] ++ r ++ [0x02, slen] ++ s`. -/
theorem spliceCompact_structure (b0 b1 : Nat) (r s : Bytes) :
    spliceCompact ([b0, b1, 2, r.length] ++ (r ++ ([2, s.length] ++ s))) =
      (27 + 4 + b0 % 2) ::
        ((if r.length = 33 then r.drop 1 else r) ++
         (if s.length = 33 then s.drop 1 else s)) := by
  have hdrop4 : ([b0, b1, 2, r.length] ++ (r ++ ([2, s.length] ++ s))).drop 4 =
      r ++ ([2, s.length] ++ s) := rfl
  have htake : (r ++ ([2, s.length] ++ s)).take r.length = r := List.take_left r _
  have hgetS : ([b0, b1, 2, r.length] ++ (r ++ ([2, s.length] ++ s))).getD
      (4 + r.length + 1) 0 = s.length := by
    have harith : 4 + r.length + 1 = (r.length + 1) + 4 := by omega
    rw [harith]
    show (r ++ ([2, s.length] ++ s)).getD (r.length + 1) 0 = s.length
    rw [List.getD_append_right r _ 0 _ (by omega)]
    simp
  have hdropS : ([b0, b1, 2, r.length] ++ (r ++ ([2, s.length] ++ s))).drop
      (4 + r.length + 2) = s := by
    have harith : 4 + r.length + 2 = (r.length + 2) + 4 := by omega
    rw [harith]
    show (r ++ ([2, s.length] ++ s)).drop (r.length + 2) = s
    have : r.length + 2 = r.length + ([2, s.length] : Bytes).length := rfl
    rw [this, ← List.length_append r ([2, s.length] : Bytes), ← List.append_assoc,
      List.drop_left]
  have hget3 : ([b0, b1, 2, r.length] ++ (r ++ ([2, s.length] ++ s))).getD 3 0 =
      r.length := rfl
  have hget0 : ([b0, b1, 2, r.length] ++ (r ++ ([2, s.length] ++ s))).getD 0 0 = b0 := rfl
  simp only [spliceCompact]
  rw [hget3, hget0, hdrop4, htake, hgetS, hdropS]

/-- The compact splice yields 65 bytes whenever the DER r- and s-length
bytes are 32 or 33. -/
theorem spliceCompact_length {b0 b1 : Nat} {r s : Bytes}
    (hr : r.length = 32 ∨ r.length = 33) (hs : s.length = 32 ∨ s.length = 33) :
    (spliceCompact ([b0, b1, 2, r.length] ++ (r ++ ([2, s.length] ++ s)))).length = 65 := by
  rw [spliceCompact_structure]
  rcases hr with hr | hr <;> rcases hs with hs | hs <;>
    simp [hr, hs, List.length_append, List.length_drop]

/-- The try-outcome dispatch never issues a `getTrustedInput` command. -/
theorem finishTry_trustedInputCalls (tx : Transaction) (oc : OutputClassification)
    (collected : List CollectedInput) (t : TryOut) :
    (finishTry tx oc collected t).devTrustedInputCalls = 0 := by
  unfold finishTry
  split <;> rfl

/-- The try-outcome dispatch passes the try block's counters and the
recognized outputs through unchanged. -/
theorem finishTry_fields (tx : Transaction) (oc : OutputClassification)
    (collected : List CollectedInput) (t : TryOut) :
    (finishTry tx oc collected t).getAuthCalls = t.authCalls ∧
    (finishTry tx oc collected t).authAddress = t.authAddress ∧
    (finishTry tx oc collected t).classification = oc ∧
    (finishTry tx oc collected t).devSignCalls = t.devCalls := by
  unfold finishTry
  split <;> exact ⟨rfl, rfl, rfl, rfl⟩

/-- On a successful try block the dispatch splices the signatures. -/
theorem finishTry_ok {tx : Transaction} {oc : OutputClassification}
    {collected : List CollectedInput} {t : TryOut} {sigs : List Bytes}
    (h : t.out = .ok sigs) :
    finishTry tx oc collected t =
      { result := .ok .signed,
        tx := { tx with inputs := spliceSignatures tx.inputs collected sigs },
        classification := oc, devSignCalls := t.devCalls, devTrustedInputCalls := 0,
        getAuthCalls := t.authCalls, authAddress := t.authAddress } := by
  unfold finishTry
  rw [h]

/-- On a cancelled try block the dispatch returns the cancelled outcome
with the transaction untouched. -/
theorem finishTry_cancelled {tx : Transaction} {oc : OutputClassification}
    {collected : List CollectedInput} {t : TryOut}
    (h : t.out = .error .userCancelled ∨ t.out = .error .chipCancelled) :
    finishTry tx oc collected t =
      { result := .ok .cancelled, tx := tx,
        classification := oc, devSignCalls := t.devCalls, devTrustedInputCalls := 0,
        getAuthCalls := t.authCalls, authAddress := t.authAddress } := by
  unfold finishTry
  rcases h with h | h <;> rw [h]

/-- `sign_transaction` never issues a `getTrustedInput` device command. -/
theorem sign_transaction_trustedInputCalls (ks : Keystore) (d : Device) (h : Handler)
    (derivs : List (String × (Nat × Nat))) (ca : Bool) (tx : Transaction) :
    (sign_transaction ks d h derivs ca tx).devTrustedInputCalls = 0 := by
  unfold sign_transaction
  split
  · rfl
  · split
    · rfl
    · split
      · rfl
      · split
        · rfl
        · split
          · rfl
          · exact finishTry_trustedInputCalls ..

/-- Combination of the two previous facts for the composed dispatch. -/
theorem finishTry_runTry_authCases (tx : Transaction) (oc : OutputClassification)
    (collected : List CollectedInput) (d : Device) (h : Handler) (tB : Bytes) (uc : Bool) :
    ((finishTry tx oc collected (runTryBlock d h collected tB oc.output uc)).getAuthCalls = 0 ∧
      (finishTry tx oc collected (runTryBlock d h collected tB oc.output uc)).authAddress = none) ∨
    ((finishTry tx oc collected (runTryBlock d h collected tB oc.output uc)).getAuthCalls = 1 ∧
      d.finalize = .ok true ∧
      (finishTry tx oc collected (runTryBlock d h collected tB oc.output uc)).authAddress =
        some (finishTry tx oc collected
          (runTryBlock d h collected tB oc.output uc)).classification.output) := by
  obtain ⟨hf1, hf2, hf3, _⟩ :=
    finishTry_fields tx oc collected (runTryBlock d h collected tB oc.output uc)
  rcases runTryBlock_authCases d h collected tB oc.output uc with hcase | hcase
  · left; exact ⟨by rw [hf1, hcase.1], by rw [hf2, hcase.2]⟩
  · right; exact ⟨by rw [hf1, hcase.1], hcase.2.1, by rw [hf2, hcase.2.2, hf3]⟩

/-- Across every path of `sign_transaction`, the auth dialog is shown at
most once; when it is shown, the finalize round-trip asked for a
confirmation and the request carried the recognized payment output. -/
theorem sign_transaction_authCases (ks : Keystore) (d : Device) (h : Handler)
    (derivs : List (String × (Nat × Nat))) (ca : Bool) (tx : Transaction) :
    ((sign_transaction ks d h derivs ca tx).getAuthCalls = 0 ∧
      (sign_transaction ks d h derivs ca tx).authAddress = none) ∨
    ((sign_transaction ks d h derivs ca tx).getAuthCalls = 1 ∧ d.finalize = .ok true ∧
      (sign_transaction ks d h derivs ca tx).authAddress =
        some (sign_transaction ks d h derivs ca tx).classification.output) := by
  unfold sign_transaction
  split
  · left; exact ⟨rfl, rfl⟩
  · split
    · left; exact ⟨rfl, rfl⟩
    · split
      · left; exact ⟨rfl, rfl⟩
      · split
        · left; exact ⟨rfl, rfl⟩
        · split
          · left; exact ⟨rfl, rfl⟩
          · apply finishTry_runTry_authCases

/-
The claims.
-/

/-- C9: calling `sign_transaction` on a transaction that is already
complete returns immediately without performing any device operation and
without modifying the transaction in any way. -/
theorem C9_complete_tx_noop (ks : Keystore) (d : Device) (h : Handler)
    (derivs : List (String × (Nat × Nat))) (ca : Bool) (tx : Transaction)
    (hc : tx.complete = true) :
    sign_transaction ks d h derivs ca tx = noDeviceOutcome tx (.ok .alreadyComplete) ∧
    (sign_transaction ks d h derivs ca tx).tx = tx ∧
    (sign_transaction ks d h derivs ca tx).devSignCalls = 0 ∧
    (sign_transaction ks d h derivs ca tx).devTrustedInputCalls = 0 ∧
    (sign_transaction ks d h derivs ca tx).getAuthCalls = 0 := by
  have heq : sign_transaction ks d h derivs ca tx =
      noDeviceOutcome tx (.ok .alreadyComplete) := by
    simp [sign_transaction, hc]
  exact ⟨heq, by rw [heq]; rfl, by rw [heq]; rfl, by rw [heq]; rfl, by rw [heq]; rfl⟩

/-- C9 witness: the complete example transaction is returned untouched. -/
theorem C9_witness :
    txComplete.complete = true ∧
    (sign_transaction ksEx devEx hEx derivsEx false txComplete =
        noDeviceOutcome txComplete (.ok .alreadyComplete) ∧
      (sign_transaction ksEx devEx hEx derivsEx false txComplete).tx = txComplete ∧
      (sign_transaction ksEx devEx hEx derivsEx false txComplete).devSignCalls = 0 ∧
      (sign_transaction ksEx devEx hEx derivsEx false txComplete).devTrustedInputCalls = 0 ∧
      (sign_transaction ksEx devEx hEx derivsEx false txComplete).getAuthCalls = 0) :=
  ⟨rfl, C9_complete_tx_noop ksEx devEx hEx derivsEx false txComplete rfl⟩

/-- C10: after any of `sign_transaction`, `sign_message` and
`show_address` completes - normally, by cancellation or through an error -
the keystore's signing flag is `false`, because the
`set_and_unset_signing` decorator clears it on every exit path. -/
theorem C10_signing_flag_cleared (ks : Keystore) (d : Device) (h : Handler)
    (derivs : List (String × (Nat × Nat))) (ca : Bool) (tx : Transaction)
    (md : MsgDevice) (st1 st2 st3 : KSState) :
    ((sign_transaction_wrapped ks d h derivs ca tx st1).2).signing = false ∧
    ((sign_message_wrapped md h st2).2).signing = false ∧
    ((show_address_wrapped d st3).2).signing = false :=
  ⟨rfl, rfl, rfl⟩

/-- C8: within one `sign_transaction` call the user confirmation prompt is
invoked at most once, and only when the device's finalize response of the
first round requested a confirmation; the later per-input rounds reuse the
PIN without prompting again. -/
theorem C8_auth_at_most_once (ks : Keystore) (d : Device) (h : Handler)
    (derivs : List (String × (Nat × Nat))) (ca : Bool) (tx : Transaction) :
    (sign_transaction ks d h derivs ca tx).getAuthCalls ≤ 1 ∧
    ((sign_transaction ks d h derivs ca tx).getAuthCalls = 1 →
      d.finalize = .ok true) := by
  rcases sign_transaction_authCases ks d h derivs ca tx with hcase | hcase
  · constructor
    · rw [hcase.1]; omega
    · intro h1; rw [hcase.1] at h1; cases h1
  · exact ⟨le_of_eq hcase.1, fun _ => hcase.2.1⟩

/-- C8 witness: a run that does prompt - confirmation requested and PIN
given - prompts exactly once. -/
theorem C8_witness :
    (sign_transaction ksEx devConfirm hAuth derivsEx false txEx).getAuthCalls ≤ 1 ∧
    ((sign_transaction ksEx devConfirm hAuth derivsEx false txEx).getAuthCalls = 1 →
      devConfirm.finalize = .ok true) :=
  C8_auth_at_most_once ksEx devConfirm hAuth derivsEx false txEx

/-- C5: capability negotiation computes the base-protocol capability as
`firmware >= (1, 1, 8)` and the firmware CashAddr capability as
`firmware >= (1, 2, 5)`, as pure lexicographic tuple comparisons; firmware
below the base threshold makes the preflight raise, and signing then fails
before any signing round-trip. -/
theorem C5_capability_negotiation (ks : Keystore) (h : Handler)
    (derivs : List (String × (Nat × Nat))) (ca : Bool) (tx : Transaction)
    (dGood dBad : Device) (caps : Capabilities)
    (hok : perform_hw1_preflight dGood = .ok caps)
    (hbad : verGE dBad.firmware BITCOIN_CASH_SUPPORT = false)
    (htx : tx.complete = false) :
    caps.bitcoinCashSupported = verGE dGood.firmware BITCOIN_CASH_SUPPORT ∧
    caps.cashaddrFWSupported = verGE dGood.firmware CASHADDR_SUPPORT ∧
    (∀ v w : Nat × Nat × Nat, verGE v w = true ↔
      (w.1 < v.1 ∨ (w.1 = v.1 ∧ (w.2.1 < v.2.1 ∨ (w.2.1 = v.2.1 ∧ w.2.2 ≤ v.2.2))))) ∧
    perform_hw1_preflight dBad = .error .unsupportedFirmware ∧
    sign_transaction ks dBad h derivs ca tx =
      noDeviceOutcome tx (.error .unsupportedFirmware) ∧
    (sign_transaction ks dBad h derivs ca tx).devSignCalls = 0 ∧
    (sign_transaction ks dBad h derivs ca tx).devTrustedInputCalls = 0 ∧
    (sign_transaction ks dBad h derivs ca tx).getAuthCalls = 0 := by
  have hfields : caps.bitcoinCashSupported = verGE dGood.firmware BITCOIN_CASH_SUPPORT ∧
      caps.cashaddrFWSupported = verGE dGood.firmware CASHADDR_SUPPORT := by
    simp only [perform_hw1_preflight] at hok
    split at hok
    · cases hok
    · split at hok
      · cases hok
      · cases hok
        exact ⟨rfl, rfl⟩
  have hiff : ∀ v w : Nat × Nat × Nat, verGE v w = true ↔
      (w.1 < v.1 ∨ (w.1 = v.1 ∧ (w.2.1 < v.2.1 ∨ (w.2.1 = v.2.1 ∧ w.2.2 ≤ v.2.2)))) := by
    intro v w
    unfold verGE
    split_ifs with h1 h2 h3 h4 <;> simp <;> omega
  have hbadpre : perform_hw1_preflight dBad = .error .unsupportedFirmware := by
    simp [perform_hw1_preflight, hbad]
  have hsign : sign_transaction ks dBad h derivs ca tx =
      noDeviceOutcome tx (.error .unsupportedFirmware) := by
    simp [sign_transaction, htx, hbadpre]
  exact ⟨hfields.1, hfields.2, hiff, hbadpre, hsign, by rw [hsign]; rfl,
    by rw [hsign]; rfl, by rw [hsign]; rfl⟩

/-- C5 witness: firmware 1.2.5 yields both capabilities, firmware 1.1.7 is
rejected before any signing round-trip. -/
theorem C5_witness :
    (perform_hw1_preflight devEx = .ok capsEx ∧
      verGE devOldFw.firmware BITCOIN_CASH_SUPPORT = false ∧
      txEx.complete = false) ∧
    (capsEx.bitcoinCashSupported = verGE devEx.firmware BITCOIN_CASH_SUPPORT ∧
      capsEx.cashaddrFWSupported = verGE devEx.firmware CASHADDR_SUPPORT ∧
      (∀ v w : Nat × Nat × Nat, verGE v w = true ↔
        (w.1 < v.1 ∨ (w.1 = v.1 ∧ (w.2.1 < v.2.1 ∨ (w.2.1 = v.2.1 ∧ w.2.2 ≤ v.2.2))))) ∧
      perform_hw1_preflight devOldFw = .error .unsupportedFirmware ∧
      sign_transaction ksEx devOldFw hEx derivsEx false txEx =
        noDeviceOutcome txEx (.error .unsupportedFirmware) ∧
      (sign_transaction ksEx devOldFw hEx derivsEx false txEx).devSignCalls = 0 ∧
      (sign_transaction ksEx devOldFw hEx derivsEx false txEx).devTrustedInputCalls = 0 ∧
      (sign_transaction ksEx devOldFw hEx derivsEx false txEx).getAuthCalls = 0) :=
  ⟨⟨by decide, by decide, by decide⟩,
    C5_capability_negotiation ksEx hEx derivsEx false txEx devEx devOldFw capsEx
      (by decide) (by decide) (by decide)⟩

/-- C3: a transaction mixing one p2sh input with an input of a different
script type is rejected with the mixed-input-types error before any device
signing round-trip, and the transaction is left unmodified. -/
theorem C3_mixed_inputs_rejected (ks : Keystore) (d : Device) (h : Handler)
    (derivs : List (String × (Nat × Nat))) (ca : Bool) (tx : Transaction)
    (caps : Capabilities) (col : List CollectedInput) (paths : List String) (p2 : Bool)
    (hc : tx.complete = false)
    (hpre : perform_hw1_preflight d = .ok caps)
    (hcol : collectLoop ks derivs tx.inputs = .ok (col, paths, p2))
    (hp2sh : ∃ t ∈ tx.inputs, t.scriptType = "p2sh")
    (hother : ∃ t ∈ tx.inputs, ¬ t.scriptType = "p2sh") :
    sign_transaction ks d h derivs ca tx = noDeviceOutcome tx (.error .mixedInputTypes) ∧
    (sign_transaction ks d h derivs ca tx).result = .error .mixedInputTypes ∧
    (sign_transaction ks d h derivs ca tx).tx = tx ∧
    (sign_transaction ks d h derivs ca tx).devSignCalls = 0 ∧
    (sign_transaction ks d h derivs ca tx).devTrustedInputCalls = 0 ∧
    (sign_transaction ks d h derivs ca tx).getAuthCalls = 0 := by
  have hp2 : p2 = true := by
    rw [collectLoop_p2sh hcol, List.any_eq_true]
    obtain ⟨t, hmem, ht⟩ := hp2sh
    exact ⟨t, hmem, by simp [ht]⟩
  have hmixed :
      (p2 && tx.inputs.any (fun t => !(t.scriptType = "p2sh" : Bool))) = true := by
    rw [hp2, Bool.true_and, List.any_eq_true]
    obtain ⟨t, hmem, ht⟩ := hother
    exact ⟨t, hmem, by simp [ht]⟩
  have heq : sign_transaction ks d h derivs ca tx =
      noDeviceOutcome tx (.error .mixedInputTypes) := by
    simp [sign_transaction, hc, hpre, hcol, hmixed]
  exact ⟨heq, by rw [heq]; rfl, by rw [heq]; rfl, by rw [heq]; rfl,
    by rw [heq]; rfl, by rw [heq]; rfl⟩

/-- C3 witness: one p2sh and one p2pkh input are rejected with zero device
calls. -/
theorem C3_witness :
    (txMixed.complete = false ∧
      perform_hw1_preflight devEx = .ok capsEx ∧
      collectLoop ksEx derivsEx txMixed.inputs = .ok (colMixed, pathsMixed, true) ∧
      (∃ t ∈ txMixed.inputs, t.scriptType = "p2sh") ∧
      (∃ t ∈ txMixed.inputs, ¬ t.scriptType = "p2sh")) ∧
    (sign_transaction ksEx devEx hEx derivsEx false txMixed =
        noDeviceOutcome txMixed (.error .mixedInputTypes) ∧
      (sign_transaction ksEx devEx hEx derivsEx false txMixed).result =
        .error .mixedInputTypes ∧
      (sign_transaction ksEx devEx hEx derivsEx false txMixed).tx = txMixed ∧
      (sign_transaction ksEx devEx hEx derivsEx false txMixed).devSignCalls = 0 ∧
      (sign_transaction ksEx devEx hEx derivsEx false txMixed).devTrustedInputCalls = 0 ∧
      (sign_transaction ksEx devEx hEx derivsEx false txMixed).getAuthCalls = 0) :=
  ⟨⟨by decide, by decide, by decide, by decide, by decide⟩,
    C3_mixed_inputs_rejected ksEx devEx hEx derivsEx false txMixed capsEx colMixed
      pathsMixed true (by decide) (by decide) (by decide) (by decide) (by decide)⟩

/-- C4: a transaction with an input none of whose extended public keys is
in the wallet's derivation records fails with the no-matching-key error;
the failure is fatal and every signature slot stays empty. -/
theorem C4_no_matching_key (ks : Keystore) (d : Device) (h : Handler)
    (derivs : List (String × (Nat × Nat))) (ca : Bool) (tx : Transaction)
    (caps : Capabilities)
    (hc : tx.complete = false)
    (hpre : perform_hw1_preflight d = .ok caps)
    (hnocb : ∀ t ∈ tx.inputs, ¬ t.scriptType = "coinbase")
    (hbad : ∃ t ∈ tx.inputs, findSigningInfo derivs t.x_pubkeys = none)
    (hempty : ∀ t ∈ tx.inputs, ∀ sl ∈ t.signatures, sl = none) :
    (sign_transaction ks d h derivs ca tx).result = .error .noMatchingKey ∧
    (sign_transaction ks d h derivs ca tx).tx = tx ∧
    (∀ t ∈ (sign_transaction ks d h derivs ca tx).tx.inputs,
      ∀ sl ∈ t.signatures, sl = none) ∧
    (sign_transaction ks d h derivs ca tx).devSignCalls = 0 ∧
    (sign_transaction ks d h derivs ca tx).devTrustedInputCalls = 0 := by
  have hcol : collectLoop ks derivs tx.inputs = .error .noMatchingKey :=
    collectLoop_noMatch hnocb hbad
  have heq : sign_transaction ks d h derivs ca tx =
      noDeviceOutcome tx (.error .noMatchingKey) := by
    simp [sign_transaction, hc, hpre, hcol]
  refine ⟨by rw [heq]; rfl, by rw [heq]; rfl, ?_, by rw [heq]; rfl, by rw [heq]; rfl⟩
  rw [heq]
  exact hempty

/-- C4 witness: the foreign-key transaction fails with empty slots. -/
theorem C4_witness :
    (txNoMatch.complete = false ∧
      perform_hw1_preflight devEx = .ok capsEx ∧
      (∀ t ∈ txNoMatch.inputs, ¬ t.scriptType = "coinbase") ∧
      (∃ t ∈ txNoMatch.inputs, findSigningInfo derivsEx t.x_pubkeys = none) ∧
      (∀ t ∈ txNoMatch.inputs, ∀ sl ∈ t.signatures, sl = none)) ∧
    ((sign_transaction ksEx devEx hEx derivsEx false txNoMatch).result =
        .error .noMatchingKey ∧
      (sign_transaction ksEx devEx hEx derivsEx false txNoMatch).tx = txNoMatch ∧
      (∀ t ∈ (sign_transaction ksEx devEx hEx derivsEx false txNoMatch).tx.inputs,
        ∀ sl ∈ t.signatures, sl = none) ∧
      (sign_transaction ksEx devEx hEx derivsEx false txNoMatch).devSignCalls = 0 ∧
      (sign_transaction ksEx devEx hEx derivsEx false txNoMatch).devTrustedInputCalls = 0) :=
  ⟨⟨by decide, by decide, by decide, by decide, by decide⟩,
    C4_no_matching_key ksEx devEx hEx derivsEx false txNoMatch capsEx
      (by decide) (by decide) (by decide) (by decide) (by decide)⟩

/-- C2: user cancellation at the confirmation gate - the auth prompt
returning no PIN, or the device reporting status 0x6985 - makes
`sign_transaction` return the distinguished cancelled outcome instead of
an error, with every signature slot left exactly as it was. -/
theorem C2_cancellation_is_clean (ks : Keystore) (d : Device) (h : Handler)
    (derivs : List (String × (Nat × Nat))) (ca : Bool) (tx : Transaction)
    (caps : Capabilities) (col : List CollectedInput) (paths : List String) (p2 : Bool)
    (oc : OutputClassification)
    (hc : tx.complete = false)
    (hpre : perform_hw1_preflight d = .ok caps)
    (hcol : collectLoop ks derivs tx.inputs = .ok (col, paths, p2))
    (hmix : (p2 && tx.inputs.any (fun t => !(t.scriptType = "p2sh" : Bool))) = false)
    (hrec : (if !p2 then recognizeOutputs ks tx else .ok .init) = .ok oc)
    (hcancel :
      (runTryBlock d h col (buildOutputSection tx) oc.output
          (ca && (caps.cashaddrFWSupported && caps.cashaddrSWSupported))).out =
        .error .userCancelled ∨
      (runTryBlock d h col (buildOutputSection tx) oc.output
          (ca && (caps.cashaddrFWSupported && caps.cashaddrSWSupported))).out =
        .error .chipCancelled) :
    (sign_transaction ks d h derivs ca tx).result = .ok .cancelled ∧
    (sign_transaction ks d h derivs ca tx).tx = tx ∧
    (∀ sw, handleSw sw = .chipCancelled ↔ sw = 0x6985) := by
  have hstep : sign_transaction ks d h derivs ca tx =
      finishTry tx oc col
        (runTryBlock d h col (buildOutputSection tx) oc.output
          (ca && (caps.cashaddrFWSupported && caps.cashaddrSWSupported))) := by
    simp only [Bool.not_eq_true'] at hrec
    simp [sign_transaction, hc, hpre, hcol, hmix, hrec]
  rw [hstep, finishTry_cancelled hcancel]
  refine ⟨rfl, rfl, ?_⟩
  intro sw
  unfold handleSw
  constructor
  · intro hsw
    by_cases h69 : sw = 0x6985
    · exact h69
    · rw [if_neg h69] at hsw; cases hsw
  · intro h69
    rw [if_pos h69]

/-- C2 witness: a dismissed auth dialog cancels the signing and leaves the
example transaction untouched. -/
theorem C2_witness :
    (txEx.complete = false ∧
      perform_hw1_preflight devConfirm = .ok capsEx ∧
      collectLoop ksEx derivsEx txEx.inputs = .ok (colEx, pathsEx, false) ∧
      (false && txEx.inputs.any (fun t => !(t.scriptType = "p2sh" : Bool))) = false ∧
      (if !false then recognizeOutputs ksEx txEx else .ok .init) = .ok ocEx ∧
      ((runTryBlock devConfirm hEx colEx (buildOutputSection txEx) ocEx.output
          (false && (capsEx.cashaddrFWSupported && capsEx.cashaddrSWSupported))).out =
            .error .userCancelled ∨
        (runTryBlock devConfirm hEx colEx (buildOutputSection txEx) ocEx.output
          (false && (capsEx.cashaddrFWSupported && capsEx.cashaddrSWSupported))).out =
            .error .chipCancelled)) ∧
    ((sign_transaction ksEx devConfirm hEx derivsEx false txEx).result = .ok .cancelled ∧
      (sign_transaction ksEx devConfirm hEx derivsEx false txEx).tx = txEx ∧
      (∀ sw, handleSw sw = .chipCancelled ↔ sw = 0x6985)) :=
  ⟨⟨by decide, by decide, by decide, by decide, by decide, by decide⟩,
    C2_cancellation_is_clean ksEx devConfirm hEx derivsEx false txEx capsEx colEx
      pathsEx false ocEx (by decide) (by decide) (by decide) (by decide) (by decide)
      (by decide)⟩

set_option maxRecDepth 20000 in
/-- C1 counterexample: on a single-input p2pkh transaction that signs
successfully, the slot receives the hex of the device's 70-byte DER
signature (first byte forced to 0x30) - 140 hex characters - not a
65-byte compact signature, whose hex (produced by the `sign_message`
splice on the same DER input) has 130 characters. -/
theorem C1_counterexample :
    (sign_transaction ksEx devEx hEx derivsEx false txEx).result = .ok .signed ∧
    (sign_transaction ksEx devEx hEx derivsEx false txEx).tx.inputs =
      [{ inEx with signatures := [some (bh2u derForced)] }] ∧
    derForced.length = 70 ∧ (bh2u derForced).length = 140 ∧
    (spliceCompact derEx).length = 65 ∧ (bh2u (spliceCompact derEx)).length = 130 ∧
    ¬ (bh2u derForced).length = 130 := by decide

/-- C1 (amended): whenever a transaction of a single script type runs the
signing protocol to completion, `sign_transaction` writes into every
input's computed signing slot the hex encoding of the device's DER
signature with its first byte forced to 0x30 (not a 65-byte compact
signature); the 65-byte compact splice - marker `27 + 4 +
(signature[0] & 1)` followed by r and s with a 33-byte component's zero
pad stripped - belongs to `sign_message`, and always yields 65 bytes when
the DER r- and s-lengths are 32 or 33. -/
theorem C1_slots_receive_der_hex (ks : Keystore) (d : Device) (h : Handler)
    (derivs : List (String × (Nat × Nat))) (ca : Bool) (tx : Transaction)
    (caps : Capabilities) (col : List CollectedInput) (paths : List String) (p2 : Bool)
    (oc : OutputClassification) (sigs : List Bytes)
    (hc : tx.complete = false)
    (hpre : perform_hw1_preflight d = .ok caps)
    (hcol : collectLoop ks derivs tx.inputs = .ok (col, paths, p2))
    (hmix : (p2 && tx.inputs.any (fun t => !(t.scriptType = "p2sh" : Bool))) = false)
    (hrec : (if !p2 then recognizeOutputs ks tx else .ok .init) = .ok oc)
    (htry : (runTryBlock d h col (buildOutputSection tx) oc.output
        (ca && (caps.cashaddrFWSupported && caps.cashaddrSWSupported))).out = .ok sigs)
    (hslots : ∀ t ∈ tx.inputs, t.x_pubkeys.length ≤ t.signatures.length) :
    (sign_transaction ks d h derivs ca tx).result = .ok .signed ∧
    (sign_transaction ks d h derivs ca tx).tx.inputs.length = tx.inputs.length ∧
    (∀ i t, tx.inputs[i]? = some t →
      ∃ ci raw, col[i]? = some ci ∧ d.hashSign i = .ok raw ∧ ¬ raw = [] ∧
        ci.signingPos < t.signatures.length ∧
        (sign_transaction ks d h derivs ca tx).tx.inputs[i]? =
          some { t with signatures :=
            t.signatures.set ci.signingPos (some (bh2u (0x30 :: raw.tail))) } ∧
        (t.signatures.set ci.signingPos
            (some (bh2u (0x30 :: raw.tail))))[ci.signingPos]? =
          some (some (bh2u (0x30 :: raw.tail)))) ∧
    (∀ b0 b1 : Nat, ∀ r s : Bytes,
      (r.length = 32 ∨ r.length = 33) → (s.length = 32 ∨ s.length = 33) →
      (spliceCompact ([b0, b1, 2, r.length] ++ (r ++ ([2, s.length] ++ s)))).length = 65) := by
  have hstep : sign_transaction ks d h derivs ca tx =
      finishTry tx oc col
        (runTryBlock d h col (buildOutputSection tx) oc.output
          (ca && (caps.cashaddrFWSupported && caps.cashaddrSWSupported))) := by
    simp only [Bool.not_eq_true'] at hrec
    simp [sign_transaction, hc, hpre, hcol, hmix, hrec]
  rw [hstep, finishTry_ok htry]
  obtain ⟨c, hloop⟩ := runTryBlock_ok htry
  obtain ⟨hlen, hpt⟩ := signInputsLoop_spec hloop
  have hcollen : col.length = tx.inputs.length := collectLoop_length hcol
  refine ⟨rfl, ?_, ?_, ?_⟩
  · show (spliceSignatures tx.inputs col sigs).length = tx.inputs.length
    exact spliceSignatures_length
  · intro i t ht
    have hi : i < tx.inputs.length := (List.getElem?_eq_some.mp ht).1
    obtain ⟨ps, hps, hci⟩ := collectLoop_get hcol ht
    have hposlt : ps.1 < t.x_pubkeys.length := findSigningInfo_lt hps
    have hmem : t ∈ tx.inputs := by
      obtain ⟨hlt, he⟩ := List.getElem?_eq_some.mp ht
      exact he ▸ List.getElem_mem hlt
    have hposlt2 : ps.1 < t.signatures.length :=
      lt_of_lt_of_le hposlt (hslots t hmem)
    have hrange : (List.range col.length)[i]? = some i :=
      List.getElem?_range (by omega)
    obtain ⟨raw, hraw, hrawne, hsig⟩ := hpt hrange
    refine ⟨_, raw, hci, hraw, hrawne, hposlt2, ?_, ?_⟩
    · show (spliceSignatures tx.inputs col sigs)[i]? = _
      exact spliceSignatures_get ht hci hsig
    · exact List.getElem?_set_eq_of_lt _ hposlt2
  · intro b0 b1 r s hr hs
    exact spliceCompact_length hr hs

set_option maxRecDepth 20000 in
/-- C1 witness: the amended statement at the one-input example run. -/
theorem C1_witness :
    (txEx.complete = false ∧
      perform_hw1_preflight devEx = .ok capsEx ∧
      collectLoop ksEx derivsEx txEx.inputs = .ok (colEx, pathsEx, false) ∧
      (false && txEx.inputs.any (fun t => !(t.scriptType = "p2sh" : Bool))) = false ∧
      (if !false then recognizeOutputs ksEx txEx else .ok .init) = .ok ocEx ∧
      (runTryBlock devEx hEx colEx (buildOutputSection txEx) ocEx.output
        (false && (capsEx.cashaddrFWSupported && capsEx.cashaddrSWSupported))).out =
          .ok [derForced] ∧
      (∀ t ∈ txEx.inputs, t.x_pubkeys.length ≤ t.signatures.length)) ∧
    ((sign_transaction ksEx devEx hEx derivsEx false txEx).result = .ok .signed ∧
      (sign_transaction ksEx devEx hEx derivsEx false txEx).tx.inputs.length =
        txEx.inputs.length ∧
      (∀ i t, txEx.inputs[i]? = some t →
        ∃ ci raw, colEx[i]? = some ci ∧ devEx.hashSign i = .ok raw ∧ ¬ raw = [] ∧
          ci.signingPos < t.signatures.length ∧
          (sign_transaction ksEx devEx hEx derivsEx false txEx).tx.inputs[i]? =
            some { t with signatures :=
              t.signatures.set ci.signingPos (some (bh2u (0x30 :: raw.tail))) } ∧
          (t.signatures.set ci.signingPos
              (some (bh2u (0x30 :: raw.tail))))[ci.signingPos]? =
            some (some (bh2u (0x30 :: raw.tail)))) ∧
      (∀ b0 b1 : Nat, ∀ r s : Bytes,
        (r.length = 32 ∨ r.length = 33) → (s.length = 32 ∨ s.length = 33) →
        (spliceCompact ([b0, b1, 2, r.length] ++ (r ++ ([2, s.length] ++ s)))).length
          = 65)) :=
  ⟨⟨by decide, by decide, by decide, by decide, by decide, by decide, by decide⟩,
    C1_slots_receive_der_hex ksEx devEx hEx derivsEx false txEx capsEx colEx pathsEx
      false ocEx [derForced] (by decide) (by decide) (by decide) (by decide)
      (by decide) (by decide) (by decide)⟩

/-- C6 counterexample: an all-p2sh two-output transaction with exactly one
wallet-owned output signs successfully, yet no output is classified as
change (`changeAmount` stays `None`, `changePath` stays empty) and the
on-device confirmation receives no address at all instead of the other
output - the recognition loop runs only for non-p2sh transactions. -/
theorem C6_counterexample :
    txP2sh.outputs.length = 2 ∧
    (List.lookup outChange.address txP2sh.output_info).isSome = true ∧
    (List.lookup outPay.address txP2sh.output_info).isSome = false ∧
    (∀ t ∈ txP2sh.inputs, t.scriptType = "p2sh") ∧
    (sign_transaction ksEx devConfirm hAuth derivsEx false txP2sh).result =
      .ok .signed ∧
    (sign_transaction ksEx devConfirm hAuth derivsEx false txP2sh).classification.changeAmount
      = none ∧
    (sign_transaction ksEx devConfirm hAuth derivsEx false txP2sh).classification.changePath
      = "" ∧
    (sign_transaction ksEx devConfirm hAuth derivsEx false txP2sh).getAuthCalls = 1 ∧
    (sign_transaction ksEx devConfirm hAuth derivsEx false txP2sh).authAddress =
      some none := by decide

/-- C6 (amended): for non-p2sh transactions the recognition behaves as
claimed - in a two-output transaction with exactly one wallet-owned
output that output is classified as change (path and amount recorded) and
the other is the one attached to the on-device confirmation; a one-output
transaction never classifies change even on a wallet match; an output is
classified as change only when its address is in the wallet's records;
p2sh transactions skip recognition entirely. -/
theorem C6_change_recognition (ks : Keystore)
    (txA : Transaction) (oA1 oA2 : TxOutput) (idxA : Nat × Nat)
    (hA : txA.outputs = [oA1, oA2])
    (hA1 : List.lookup oA1.address txA.output_info = some idxA)
    (hA2 : List.lookup oA2.address txA.output_info = none)
    (hAt1 : oA1.typ = TYPE_ADDRESS) (hAt2 : oA2.typ = TYPE_ADDRESS)
    (txB : Transaction) (oB1 oB2 : TxOutput) (idxB : Nat × Nat)
    (hB : txB.outputs = [oB1, oB2])
    (hB1 : List.lookup oB1.address txB.output_info = none)
    (hB2 : List.lookup oB2.address txB.output_info = some idxB)
    (hBt1 : oB1.typ = TYPE_ADDRESS) (hBt2 : oB2.typ = TYPE_ADDRESS)
    (txC : Transaction) (oC : TxOutput)
    (hC : txC.outputs = [oC]) (hCt : oC.typ = TYPE_ADDRESS)
    (ks4 : Keystore) (tx4 : Transaction) (oc4 : OutputClassification) (a4 : Nat)
    (h4 : recognizeOutputs ks4 tx4 = .ok oc4) (h4c : oc4.changeAmount = some a4)
    (ks5 : Keystore) (d5 : Device) (h5 : Handler)
    (derivs5 : List (String × (Nat × Nat))) (ca5 : Bool) (tx5 : Transaction)
    (hauth : (sign_transaction ks5 d5 h5 derivs5 ca5 tx5).getAuthCalls = 1) :
    recognizeOutputs ks txA = .ok
      { changePath := hwPath ks idxA.1 idxA.2, changeAmount := some oA1.amount,
        output := some oA2.address, outputAmount := some oA2.amount } ∧
    recognizeOutputs ks txB = .ok
      { changePath := hwPath ks idxB.1 idxB.2, changeAmount := some oB2.amount,
        output := some oB1.address, outputAmount := some oB1.amount } ∧
    recognizeOutputs ks txC = .ok
      { changePath := "", changeAmount := none,
        output := some oC.address, outputAmount := some oC.amount } ∧
    (∃ o ∈ tx4.outputs, (List.lookup o.address tx4.output_info).isSome = true ∧
      o.amount = a4) ∧
    (sign_transaction ks5 d5 h5 derivs5 ca5 tx5).authAddress =
      some (sign_transaction ks5 d5 h5 derivs5 ca5 tx5).classification.output := by
  refine ⟨recognizeOutputs_two_first hA hA1 hA2 hAt1 hAt2,
    recognizeOutputs_two_second hB hB1 hB2 hBt1 hBt2,
    recognizeOutputs_single hC hCt, ?_, ?_⟩
  · rcases recognizeLoop_change_sound h4 with hsame | ⟨o, hmem, hsome, ha⟩
    · rw [h4c] at hsame
      cases hsame
    · rw [h4c] at ha
      cases ha
      exact ⟨o, hmem, hsome, rfl⟩
  · rcases sign_transaction_authCases ks5 d5 h5 derivs5 ca5 tx5 with hcase | hcase
    · rw [hcase.1] at hauth
      cases hauth
    · exact hcase.2.2

set_option maxRecDepth 20000 in
/-- C6 witness: the amended statement at the concrete two-output,
one-output and auth-carrying example runs. -/
theorem C6_witness :
    (txTwoOutA.outputs = [outChange, outPay] ∧
      List.lookup outChange.address txTwoOutA.output_info = some (1, 3) ∧
      List.lookup outPay.address txTwoOutA.output_info = none ∧
      txTwoOut.outputs = [outPay, outChange] ∧
      List.lookup outPay.address txTwoOut.output_info = none ∧
      List.lookup outChange.address txTwoOut.output_info = some (1, 3) ∧
      txOneOut.outputs = [outChange] ∧
      recognizeOutputs ksEx txTwoOut = .ok ocTwoOut ∧
      ocTwoOut.changeAmount = some 9000 ∧
      (sign_transaction ksEx devConfirm hAuth derivsEx false txEx).getAuthCalls = 1) ∧
    (recognizeOutputs ksEx txTwoOutA = .ok
        { changePath := hwPath ksEx 1 3, changeAmount := some outChange.amount,
          output := some outPay.address, outputAmount := some outPay.amount } ∧
      recognizeOutputs ksEx txTwoOut = .ok
        { changePath := hwPath ksEx 1 3, changeAmount := some outChange.amount,
          output := some outPay.address, outputAmount := some outPay.amount } ∧
      recognizeOutputs ksEx txOneOut = .ok
        { changePath := "", changeAmount := none,
          output := some outChange.address, outputAmount := some outChange.amount } ∧
      (∃ o ∈ txTwoOut.outputs, (List.lookup o.address txTwoOut.output_info).isSome = true ∧
        o.amount = 9000) ∧
      (sign_transaction ksEx devConfirm hAuth derivsEx false txEx).authAddress =
        some (sign_transaction ksEx devConfirm hAuth derivsEx false txEx).classification.output) :=
  ⟨⟨by decide, by decide, by decide, by decide, by decide, by decide, by decide,
      by decide, by decide, by decide⟩,
    C6_change_recognition ksEx txTwoOutA outChange outPay (1, 3) (by decide) (by decide)
      (by decide) (by decide) (by decide) txTwoOut outPay outChange (1, 3) (by decide)
      (by decide) (by decide) (by decide) (by decide) txOneOut outChange (by decide)
      (by decide) ksEx txTwoOut ocTwoOut 9000 (by decide) (by decide) ksEx devConfirm
      hAuth derivsEx false txEx (by decide)⟩

/-- C7 counterexample: a successful one-input signing run performs zero
`getTrustedInput` device round-trips - the trusted-input surrogates are
built locally, so the claim that a trusted-input token is requested from
the device for every input fails. -/
theorem C7_counterexample :
    txEx.inputs.length = 1 ∧
    (sign_transaction ksEx devEx hEx derivsEx false txEx).result = .ok .signed ∧
    (sign_transaction ksEx devEx hEx derivsEx false txEx).devTrustedInputCalls = 0 := by
  decide

/-- C7 (amended): for every input the signing phase builds the
trusted-input surrogate locally - reversed prevout hash, 4-byte output
index, and the amount parsed from the full previous-transaction bytes -
with no `getTrustedInput` device round-trip ever issued; the inputs are
then signed strictly in transaction order, one `untrustedHashSign` device
call per input. -/
theorem C7_trusted_inputs_local (ks : Keystore) (d : Device) (h : Handler)
    (derivs : List (String × (Nat × Nat))) (ca : Bool) (tx : Transaction)
    (caps : Capabilities) (col : List CollectedInput) (paths : List String) (p2 : Bool)
    (oc : OutputClassification) (sigs : List Bytes) (chips : List ChipInput)
    (hc : tx.complete = false)
    (hpre : perform_hw1_preflight d = .ok caps)
    (hcol : collectLoop ks derivs tx.inputs = .ok (col, paths, p2))
    (hmix : (p2 && tx.inputs.any (fun t => !(t.scriptType = "p2sh" : Bool))) = false)
    (hrec : (if !p2 then recognizeOutputs ks tx else .ok .init) = .ok oc)
    (htry : (runTryBlock d h col (buildOutputSection tx) oc.output
        (ca && (caps.cashaddrFWSupported && caps.cashaddrSWSupported))).out = .ok sigs)
    (hchip : buildChipInputs col = some chips) :
    (∀ i : Nat, ∀ ci : CollectedInput, col[i]? = some ci →
      ∃ amt, ci.prev_tx.outputAmounts[ci.prevout_n]? = some amt ∧
        chips[i]? = some { value := ci.prevout_hash.reverse ++ intToLE ci.prevout_n 4 ++ amt,
                           witness := true, sequence := intToLE ci.sequence 4 }) ∧
    (∀ ks2 d2 h2 derivs2 ca2 tx2,
      (sign_transaction ks2 d2 h2 derivs2 ca2 tx2).devTrustedInputCalls = 0) ∧
    (sign_transaction ks d h derivs ca tx).result = .ok .signed ∧
    sigs.length = tx.inputs.length ∧
    (∀ j : Nat, j < tx.inputs.length →
      ∃ raw, d.hashSign j = .ok raw ∧ ¬ raw = [] ∧
        sigs[j]? = some (0x30 :: raw.tail)) := by
  have hstep : sign_transaction ks d h derivs ca tx =
      finishTry tx oc col
        (runTryBlock d h col (buildOutputSection tx) oc.output
          (ca && (caps.cashaddrFWSupported && caps.cashaddrSWSupported))) := by
    simp only [Bool.not_eq_true'] at hrec
    simp [sign_transaction, hc, hpre, hcol, hmix, hrec]
  obtain ⟨c, hloop⟩ := runTryBlock_ok htry
  obtain ⟨hlen, hpt⟩ := signInputsLoop_spec hloop
  have hcollen : col.length = tx.inputs.length := collectLoop_length hcol
  refine ⟨fun i ci hci => buildChipInputs_get hchip hci,
    sign_transaction_trustedInputCalls, ?_, ?_, ?_⟩
  · rw [hstep, finishTry_ok htry]
  · rw [hlen, List.length_range, hcollen]
  · intro j hj
    have hrange : (List.range col.length)[j]? = some j :=
      List.getElem?_range (by omega)
    exact hpt hrange

set_option maxRecDepth 20000 in
/-- C7 witness: the amended statement at the one-input example run. -/
theorem C7_witness :
    (txEx.complete = false ∧
      perform_hw1_preflight devEx = .ok capsEx ∧
      collectLoop ksEx derivsEx txEx.inputs = .ok (colEx, pathsEx, false) ∧
      (false && txEx.inputs.any (fun t => !(t.scriptType = "p2sh" : Bool))) = false ∧
      (if !false then recognizeOutputs ksEx txEx else .ok .init) = .ok ocEx ∧
      (runTryBlock devEx hEx colEx (buildOutputSection txEx) ocEx.output
        (false && (capsEx.cashaddrFWSupported && capsEx.cashaddrSWSupported))).out =
          .ok [derForced] ∧
      buildChipInputs colEx = some chipsEx) ∧
    ((∀ i : Nat, ∀ ci : CollectedInput, colEx[i]? = some ci →
        ∃ amt, ci.prev_tx.outputAmounts[ci.prevout_n]? = some amt ∧
          chipsEx[i]? = some { value := ci.prevout_hash.reverse ++ intToLE ci.prevout_n 4 ++ amt,
                               witness := true, sequence := intToLE ci.sequence 4 }) ∧
      (∀ ks2 d2 h2 derivs2 ca2 tx2,
        (sign_transaction ks2 d2 h2 derivs2 ca2 tx2).devTrustedInputCalls = 0) ∧
      (sign_transaction ksEx devEx hEx derivsEx false txEx).result = .ok .signed ∧
      ([derForced] : List Bytes).length = txEx.inputs.length ∧
      (∀ j : Nat, j < txEx.inputs.length →
        ∃ raw, devEx.hashSign j = .ok raw ∧ ¬ raw = [] ∧
          ([derForced] : List Bytes)[j]? = some (0x30 :: raw.tail))) :=
  ⟨⟨by decide, by decide, by decide, by decide, by decide, by decide, by decide⟩,
    C7_trusted_inputs_local ksEx devEx hEx derivsEx false txEx capsEx colEx pathsEx
      false ocEx [derForced] chipsEx (by decide) (by decide) (by decide) (by decide)
      (by decide) (by decide) (by decide)⟩
